import Mathlib

/-!
Verification of the component-model `.wast` harness
(`scripts/run_component_wast.py`).

The Python source is shallowly embedded here.  Python strings are
sequences of Unicode code points and are modelled as `List Nat`;
Python `None`-able results are modelled with `Option`; integer counters
that can receive values parsed from external-tool output are modelled
as `Int`.  External processes (`wasm-tools parse`, `wasmoon component
--validate`, `wasmoon run`, `wasmoon component-test`) are modelled as
oracle functions collected in a `Tools` structure; a ghost counter in
the interpreter state records how many external processes the
classifier has spawned.

Loops whose Python form advances an index through a fixed string are
written with an explicit fuel argument; every such loop advances its
index by at least one per iteration, so fuel `text.length + 1` (or the
stated bound) always suffices and the wrapper functions fix it there.
-/

namespace Wasmoon

/-- Code-point list for a Lean string literal (model of a Python `str`). -/
def pstr (s : String) : List Nat := s.data.map Char.toNat

/-- Python `str.isspace` on a single code point (the Unicode whitespace
table used by CPython). -/
def pyIsSpace (c : Nat) : Bool :=
  (9 ≤ c && c ≤ 13) || (28 ≤ c && c ≤ 31) || c == 32 || c == 133 || c == 160 ||
  c == 5760 || (8192 ≤ c && c ≤ 8202) || c == 8232 || c == 8233 || c == 8239 ||
  c == 8287 || c == 12288

/-- Hex-digit value of a code point (`0-9a-fA-F`), as used by
`int(s, 16)` and the `\\XX` escape test in `parse_string`. -/
def hexVal? (c : Nat) : Option Nat :=
  if 48 ≤ c ∧ c ≤ 57 then some (c - 48)
  else if 97 ≤ c ∧ c ≤ 102 then some (c - 87)
  else if 65 ≤ c ∧ c ≤ 70 then some (c - 55)
  else none

/-- Decimal-digit value of a code point, as used by `int(s)`. -/
def decVal? (c : Nat) : Option Nat :=
  if 48 ≤ c ∧ c ≤ 57 then some (c - 48) else none

/-- ASCII case folding; the harness only lowercases tool diagnostics in
order to match its (ASCII) `UNSUPPORTED_ERROR_SUBSTRINGS` markers. -/
def pyLower (s : List Nat) : List Nat :=
  s.map fun c => if 65 ≤ c ∧ c ≤ 90 then c + 32 else c

/-- Python `str.strip()` (no argument): remove leading and trailing
whitespace. -/
def pyStrip (s : List Nat) : List Nat :=
  ((s.dropWhile pyIsSpace).reverse.dropWhile pyIsSpace).reverse

/-- Python `a or b` on strings: `b` when `a` is empty. -/
def pyOr (a b : List Nat) : List Nat := if a = [] then b else a

/-- Python `needle in hay` on strings (substring test). -/
def pyContains : List Nat → List Nat → Bool
  | [], needle => needle.isEmpty
  | hay@(_ :: t), needle => needle.isPrefixOf hay || pyContains t needle

/-- Decimal digit string of a natural number. -/
def natDec (n : Nat) : List Nat := (Nat.toDigits 10 n).map Char.toNat

/-- Python `str(i)` for an integer. -/
def intDec (i : Int) : List Nat :=
  if i < 0 then 45 :: natDec i.natAbs else natDec i.toNat

/-- Digit run of `int(s, base)` after the first digit: underscores are
allowed strictly between digits. -/
def pyDigitsF (dv : Nat → Option Nat) (base : Nat) : Nat → List Nat → Option Nat
  | acc, [] => some acc
  | acc, 95 :: c :: rest =>
    match dv c with
    | some d => pyDigitsF dv base (acc * base + d) rest
    | none => none
  | acc, c :: rest =>
    match dv c with
    | some d => pyDigitsF dv base (acc * base + d) rest
    | none => none

/-- Leading digit of `int(s, base)` (an underscore may not come first). -/
def pyDigitsStart (dv : Nat → Option Nat) (base : Nat) : List Nat → Option Nat
  | [] => none
  | c :: rest =>
    match dv c with
    | some d => pyDigitsF dv base d rest
    | none => none

/-- Python `int(s, base)`: optional surrounding whitespace, optional
sign, then digits (underscores allowed between digits).  `none` models
`ValueError`. -/
def pyIntBase (dv : Nat → Option Nat) (base : Nat) (s : List Nat) : Option Int :=
  match pyStrip s with
  | 43 :: rest => (pyDigitsStart dv base rest).map Int.ofNat
  | 45 :: rest => (pyDigitsStart dv base rest).map fun n => -(n : Int)
  | rest => (pyDigitsStart dv base rest).map Int.ofNat

/-- Python `int(s)` (base 10). -/
def pyInt (s : List Nat) : Option Int := pyIntBase decVal? 10 s

/-- Python `int(s, 16)`. -/
def pyIntHex (s : List Nat) : Option Int := pyIntBase hexVal? 16 s

/-! ## Lexical scanner primitives (`skip_*`, `parse_string`, atoms) -/

/-- Loop body of `skip_line_comment`: advance to the next newline. -/
def skipLineF (text : List Nat) : Nat → Nat → Nat
  | 0, i => i
  | fuel + 1, i =>
    if i < text.length ∧ text.getD i 0 ≠ 10 then skipLineF text fuel (i + 1) else i

/-- `skip_line_comment(text, i)`. -/
def skip_line_comment (text : List Nat) (i : Nat) : Nat :=
  skipLineF text (text.length + 1) i

/-- Loop body of `skip_block_comment`, tracking nesting depth. -/
def skipBlockF (text : List Nat) : Nat → Nat → Nat → Nat
  | 0, _, i => i
  | fuel + 1, depth, i =>
    if i < text.length ∧ depth > 0 then
      if text.getD i 0 = 40 ∧ i + 1 < text.length ∧ text.getD (i + 1) 0 = 59 then
        skipBlockF text fuel (depth + 1) (i + 2)
      else if text.getD i 0 = 59 ∧ i + 1 < text.length ∧ text.getD (i + 1) 0 = 41 then
        skipBlockF text fuel (depth - 1) (i + 2)
      else skipBlockF text fuel depth (i + 1)
    else i

/-- `skip_block_comment(text, i)`: enter with depth 1, skipping the
opening `(;`. -/
def skip_block_comment (text : List Nat) (i : Nat) : Nat :=
  skipBlockF text (text.length + 1) 1 (i + 2)

/-- Loop body of `skip_ws_and_comments`. -/
def skipWsF (text : List Nat) : Nat → Nat → Nat
  | 0, i => i
  | fuel + 1, i =>
    if i < text.length then
      let c := text.getD i 0
      if pyIsSpace c then skipWsF text fuel (i + 1)
      else if c = 59 ∧ i + 1 < text.length ∧ text.getD (i + 1) 0 = 59 then
        skipWsF text fuel (skip_line_comment text (i + 2))
      else if c = 40 ∧ i + 1 < text.length ∧ text.getD (i + 1) 0 = 59 then
        skipWsF text fuel (skip_block_comment text i)
      else i
    else i

/-- `skip_ws_and_comments(text, i)`. -/
def skip_ws_and_comments (text : List Nat) (i : Nat) : Nat :=
  skipWsF text (text.length + 1) i

/-- Scan for the closing `}` of a `\\u` escape (`while j < len and
text[j] != "}"`). -/
def scanBraceF (text : List Nat) : Nat → Nat → Nat
  | 0, j => j
  | fuel + 1, j =>
    if j < text.length ∧ text.getD j 0 ≠ 125 then scanBraceF text fuel (j + 1) else j

/-- Loop body of `parse_string`, accumulating the decoded value.  The
Lean index `i` plays the role of the Python index after the opening
quote; on a backslash the Python code first advances to the escape
character, so Python's `i` is this `i + 1` inside the escape cases. -/
def parseStringF (text : List Nat) : Nat → Nat → List Nat → Option (List Nat) × Nat
  | 0, i, _ => (none, i)
  | fuel + 1, i, out =>
    if i < text.length then
      let c := text.getD i 0
      if c = 34 then (some out, i + 1)
      else if c = 92 then
        if i + 1 ≥ text.length then (none, i + 1)
        else
          let esc := text.getD (i + 1) 0
          let chain : Unit → Option (List Nat) × Nat := fun _ =>
            if esc = 110 then parseStringF text fuel (i + 2) (out ++ [10])
            else if esc = 116 then parseStringF text fuel (i + 2) (out ++ [9])
            else if esc = 114 then parseStringF text fuel (i + 2) (out ++ [13])
            else if esc = 34 then parseStringF text fuel (i + 2) (out ++ [34])
            else if esc = 92 then parseStringF text fuel (i + 2) (out ++ [92])
            else if esc = 117 ∧ i + 2 < text.length ∧ text.getD (i + 2) 0 = 123 then
              let j := scanBraceF text (text.length + 1) (i + 3)
              if j < text.length then
                let hexDigits := (text.drop (i + 3)).take (j - (i + 3))
                match pyIntHex hexDigits with
                | some v =>
                  if 0 ≤ v ∧ v < 1114112 then
                    parseStringF text fuel (j + 1) (out ++ [v.toNat])
                  else parseStringF text fuel (i + 2) (out ++ [117])
                | none => parseStringF text fuel (i + 2) (out ++ [117])
              else parseStringF text fuel (i + 2) (out ++ [117])
            else parseStringF text fuel (i + 2) (out ++ [esc])
          if hexVal? esc ≠ none ∧ i + 2 < text.length ∧
              hexVal? (text.getD (i + 2) 0) ≠ none then
            match pyIntHex [esc, text.getD (i + 2) 0] with
            | some v => parseStringF text fuel (i + 3) (out ++ [v.toNat])
            | none => chain ()
          else chain ()
      else parseStringF text fuel (i + 1) (out ++ [c])
    else (none, i)

/-- `parse_string(text, i)`: decode one string literal starting at `i`;
returns the decoded token value and the index after the closing quote,
or `none` when `i` is not at a quote or the literal is unterminated. -/
def parse_string (text : List Nat) (i : Nat) : Option (List Nat) × Nat :=
  if i < text.length ∧ text.getD i 0 = 34 then
    parseStringF text (text.length + 1) (i + 1) []
  else (none, i)

/-- Scan to the end of an atom (`while i < len and not space and not
paren`). -/
def scanAtomEndF (text : List Nat) : Nat → Nat → Nat
  | 0, i => i
  | fuel + 1, i =>
    if i < text.length ∧ ¬pyIsSpace (text.getD i 0) ∧ text.getD i 0 ≠ 40 ∧
        text.getD i 0 ≠ 41 then
      scanAtomEndF text fuel (i + 1)
    else i

/-- `parse_atom(text, i)`. -/
def parse_atom (text : List Nat) (i : Nat) : Option (List Nat) × Nat :=
  let j := skip_ws_and_comments text i
  let k := scanAtomEndF text (text.length + 1) j
  if j = k then (none, k) else (some ((text.drop j).take (k - j)), k)

/-- `read_symbol(text, i)`: like `parse_atom` with an explicit
end-of-input check first. -/
def read_symbol (text : List Nat) (i : Nat) : Option (List Nat) × Nat :=
  let j := skip_ws_and_comments text i
  if j ≥ text.length then (none, j)
  else
    let k := scanAtomEndF text (text.length + 1) j
    if j = k then (none, k) else (some ((text.drop j).take (k - j)), k)

/-! ## Structural parser (`parse_sexpr`, `parse_form`) -/

/-- Parsed tree node: atom, string token (`StringToken`), or list. -/
inductive SNode where
  | atom : List Nat → SNode
  | strTok : List Nat → SNode
  | list : List SNode → SNode

mutual

/-- `parse_sexpr` and its list loop.  Fuel decreases on every recursive
call; each call that yields an item consumes at least one character, so
`2 * text.length + 4` fuel is always enough. -/
def parseSexprF (text : List Nat) : Nat → Nat → Option SNode × Nat
  | 0, i => (none, i)
  | fuel + 1, i =>
    let i := skip_ws_and_comments text i
    if i ≥ text.length then (none, i)
    else
      let c := text.getD i 0
      if c = 40 then parseListF text fuel (i + 1) []
      else if c = 34 then
        match parse_string text i with
        | (some s, j) => (some (.strTok s), j)
        | (none, j) => (none, j)
      else
        match parse_atom text i with
        | (some a, j) => (some (.atom a), j)
        | (none, j) => (none, j)

def parseListF (text : List Nat) : Nat → Nat → List SNode → Option SNode × Nat
  | 0, i, acc => (some (.list acc.reverse), i)
  | fuel + 1, i, acc =>
    if i < text.length then
      let j := skip_ws_and_comments text i
      if j < text.length ∧ text.getD j 0 = 41 then (some (.list acc.reverse), j + 1)
      else
        match parseSexprF text fuel j with
        | (none, k) => (some (.list acc.reverse), k)
        | (some item, k) => parseListF text fuel k (item :: acc)
    else (some (.list acc.reverse), i)

end

/-- `parse_form(form)`: parse one extracted form. -/
def parse_form (form : List Nat) : Option SNode :=
  (parseSexprF form (2 * form.length + 4) 0).1

/-- `extract_expected_message(node, idx)`. -/
def extract_expected_message (node : Option SNode) (idx : Nat) : Option (List Nat) :=
  match node with
  | some (.list l) =>
    match l.get? idx with
    | some (.strTok s) => some s
    | _ => none
  | _ => none

/-- `first_symbol(form)`. -/
def first_symbol (form : List Nat) : Option (List Nat) :=
  (read_symbol form 1).1

/-! ## Top-level form scanner (`iter_forms`) -/

/-- Scanner state of `iter_forms`: nesting depth (an `Int`, since the
Python counter is a plain integer), the characters of the current
top-level form when one is open (Python's `start` slice), and the
string/comment flags. -/
structure ScanSt where
  depth : Int
  acc : Option (List Nat)
  inStr : Bool
  esc : Bool
  blockDepth : Nat

/-- Append consumed characters to the open form, if any (the Python
code slices the raw text, so every consumed character between `start`
and the closing parenthesis belongs to the form). -/
def ScanSt.push (st : ScanSt) (cs : List Nat) : ScanSt :=
  { st with acc := st.acc.map (· ++ cs) }

/-- Initial scanner state. -/
def scanInit : ScanSt := ⟨0, none, false, false, 0⟩

/-- Split at the next newline (the characters `skip_line_comment`
consumes, and the remaining text starting at the newline). -/
def splitLine (l : List Nat) : List Nat × List Nat :=
  (l.takeWhile (· ≠ 10), l.dropWhile (· ≠ 10))

/-- The `iter_forms` state machine over the remaining text; returns the
final scanner state and the top-level forms yielded, in order.  Every
iteration consumes at least one character, so fuel `length + 1` always
reaches the end of the text. -/
def iterFormsAux : Nat → List Nat → ScanSt → ScanSt × List (List Nat)
  | 0, _, st => (st, [])
  | _ + 1, [], st => (st, [])
  | fuel + 1, c :: rest, st =>
    if st.blockDepth > 0 then
      if c = 40 ∧ rest.head? = some 59 then
        iterFormsAux fuel rest.tail
          { st.push [40, 59] with blockDepth := st.blockDepth + 1 }
      else if c = 59 ∧ rest.head? = some 41 then
        iterFormsAux fuel rest.tail
          { st.push [59, 41] with blockDepth := st.blockDepth - 1 }
      else iterFormsAux fuel rest (st.push [c])
    else if st.inStr then
      if st.esc then iterFormsAux fuel rest { st.push [c] with esc := false }
      else if c = 92 then iterFormsAux fuel rest { st.push [c] with esc := true }
      else if c = 34 then iterFormsAux fuel rest { st.push [c] with inStr := false }
      else iterFormsAux fuel rest (st.push [c])
    else if c = 59 ∧ rest.head? = some 59 then
      iterFormsAux fuel (splitLine rest.tail).2
        (st.push ([59, 59] ++ (splitLine rest.tail).1))
    else if c = 40 ∧ rest.head? = some 59 then
      iterFormsAux fuel rest.tail { st.push [40, 59] with blockDepth := 1 }
    else if c = 34 then iterFormsAux fuel rest { st.push [34] with inStr := true }
    else if c = 40 then
      if st.depth = 0 then
        iterFormsAux fuel rest { st with depth := 1, acc := some [40] }
      else iterFormsAux fuel rest { st.push [40] with depth := st.depth + 1 }
    else if c = 41 then
      if st.depth - 1 = 0 then
        match st.acc with
        | some a =>
          let r := iterFormsAux fuel rest { st with depth := 0, acc := none }
          (r.1, (a ++ [41]) :: r.2)
        | none => iterFormsAux fuel rest { st with depth := st.depth - 1 }
      else iterFormsAux fuel rest { st.push [41] with depth := st.depth - 1 }
    else iterFormsAux fuel rest (st.push [c])

/-- `iter_forms(text)`: the list of top-level forms. -/
def iter_forms (text : List Nat) : List (List Nat) :=
  (iterFormsAux (text.length + 1) text scanInit).2

/-- Final scanner state after consuming the whole text (used to observe
the depth counter). -/
def iterFormsFinal (text : List Nat) : ScanSt :=
  (iterFormsAux (text.length + 1) text scanInit).1

/-! ## Nested-form search (`extract_form`, `find_component_form`) -/

/-- Loop body of `extract_form`: scan from `start` with the same
comment/string-aware state machine, returning the slice once the depth
returns to zero. -/
def extractFormF (text : List Nat) (start : Nat) :
    Nat → Nat → Int → Bool → Bool → Nat → Option (List Nat)
  | 0, _, _, _, _, _ => none
  | fuel + 1, i, depth, inStr, esc, bd =>
    if i < text.length then
      let c := text.getD i 0
      if bd > 0 then
        if c = 40 ∧ i + 1 < text.length ∧ text.getD (i + 1) 0 = 59 then
          extractFormF text start fuel (i + 2) depth inStr esc (bd + 1)
        else if c = 59 ∧ i + 1 < text.length ∧ text.getD (i + 1) 0 = 41 then
          extractFormF text start fuel (i + 2) depth inStr esc (bd - 1)
        else extractFormF text start fuel (i + 1) depth inStr esc bd
      else if inStr then
        if esc then extractFormF text start fuel (i + 1) depth inStr false bd
        else if c = 92 then extractFormF text start fuel (i + 1) depth inStr true bd
        else if c = 34 then extractFormF text start fuel (i + 1) depth false esc bd
        else extractFormF text start fuel (i + 1) depth inStr esc bd
      else if c = 59 ∧ i + 1 < text.length ∧ text.getD (i + 1) 0 = 59 then
        extractFormF text start fuel (skip_line_comment text (i + 2)) depth inStr esc bd
      else if c = 40 ∧ i + 1 < text.length ∧ text.getD (i + 1) 0 = 59 then
        extractFormF text start fuel (i + 2) depth inStr esc 1
      else if c = 34 then extractFormF text start fuel (i + 1) depth true esc bd
      else if c = 40 then extractFormF text start fuel (i + 1) (depth + 1) inStr esc bd
      else if c = 41 then
        if depth - 1 = 0 then some ((text.drop start).take (i + 1 - start))
        else extractFormF text start fuel (i + 1) (depth - 1) inStr esc bd
      else extractFormF text start fuel (i + 1) depth inStr esc bd
    else none

/-- `extract_form(text, start)`. -/
def extract_form (text : List Nat) (start : Nat) : Option (List Nat) :=
  extractFormF text start (text.length + 1) start 0 false false 0

/-- Loop body of `find_component_form`: search for the first nested
form whose head symbol is `component`. -/
def findComponentFormF (form : List Nat) :
    Nat → Nat → Bool → Bool → Nat → Option (List Nat)
  | 0, _, _, _, _ => none
  | fuel + 1, i, inStr, esc, bd =>
    if i < form.length then
      let c := form.getD i 0
      if bd > 0 then
        if c = 40 ∧ i + 1 < form.length ∧ form.getD (i + 1) 0 = 59 then
          findComponentFormF form fuel (i + 2) inStr esc (bd + 1)
        else if c = 59 ∧ i + 1 < form.length ∧ form.getD (i + 1) 0 = 41 then
          findComponentFormF form fuel (i + 2) inStr esc (bd - 1)
        else findComponentFormF form fuel (i + 1) inStr esc bd
      else if inStr then
        if esc then findComponentFormF form fuel (i + 1) inStr false bd
        else if c = 92 then findComponentFormF form fuel (i + 1) inStr true bd
        else if c = 34 then findComponentFormF form fuel (i + 1) false esc bd
        else findComponentFormF form fuel (i + 1) inStr esc bd
      else if c = 59 ∧ i + 1 < form.length ∧ form.getD (i + 1) 0 = 59 then
        findComponentFormF form fuel (skip_line_comment form (i + 2)) inStr esc bd
      else if c = 40 ∧ i + 1 < form.length ∧ form.getD (i + 1) 0 = 59 then
        findComponentFormF form fuel (i + 2) inStr esc 1
      else if c = 34 then findComponentFormF form fuel (i + 1) true esc bd
      else if c = 40 then
        if (read_symbol form (i + 1)).1 = some (pstr "component") then
          extract_form form i
        else findComponentFormF form fuel (i + 1) inStr esc bd
      else findComponentFormF form fuel (i + 1) inStr esc bd
    else none

/-- `find_component_form(form)`. -/
def find_component_form (form : List Nat) : Option (List Nat) :=
  findComponentFormF form (form.length + 1) 0 false false 0

/-- `normalize_component_form(form)`: returns the normalized form (or
`none`) and the kind string. -/
def normalize_component_form (form : List Nat) : Option (List Nat) × List Nat :=
  let r1 := read_symbol form 1
  if r1.1 ≠ some (pstr "component") then (none, pstr "unknown")
  else
    let r2 := read_symbol form r1.2
    if r2.1 = some (pstr "definition") then
      let r3 := read_symbol form r2.2
      match r3.1 with
      | some s3 =>
        if [36].isPrefixOf s3 then
          (some (pstr "(component " ++ s3 ++ form.drop r3.2), pstr "definition")
        else (some (pstr "(component" ++ form.drop r2.2), pstr "definition")
      | none => (some (pstr "(component" ++ form.drop r2.2), pstr "definition")
    else if r2.1 = some (pstr "instance") then (none, pstr "instance")
    else (some form, pstr "component")

/-! ## Constant and invoke decoding (`parse_const`, `parse_invoke`) -/

/-- JSON-like values: the command dictionaries accumulated by
`run_file` and serialized for the batch executor. -/
inductive JVal where
  | null : JVal
  | jstr : List Nat → JVal
  | jbool : Bool → JVal
  | jarr : List JVal → JVal
  | jobj : List (List Nat × JVal) → JVal

/-- Whether a field value is Python `None`. -/
def JVal.isNull : JVal → Bool
  | .null => true
  | _ => false

/-- `SUPPORTED_VALUE_TYPES`. -/
def SUPPORTED_VALUE_TYPES : List (List Nat) :=
  [pstr "bool", pstr "u8", pstr "s8", pstr "u16", pstr "s16", pstr "u32",
   pstr "s32", pstr "u64", pstr "s64", pstr "char", pstr "str", pstr "string"]

/-- `UNSUPPORTED_ERROR_SUBSTRINGS`. -/
def UNSUPPORTED_ERROR_SUBSTRINGS : List (List Nat) :=
  [pstr "unsupported component type opcode", pstr "unsupported canon opcode",
   pstr "unsupported component preamble", pstr "unsupported string encoding",
   pstr "unsupportedstringencoding", pstr "unsupportedcomponent"]

/-- `is_unsupported_error(msg)`. -/
def is_unsupported_error (msg : List Nat) : Bool :=
  UNSUPPORTED_ERROR_SUBSTRINGS.any fun token => pyContains (pyLower msg) token

/-- The dict `{"type": t, "value": v}` built by `parse_const`. -/
def constObj (t v : List Nat) : JVal :=
  .jobj [(pstr "type", .jstr t), (pstr "value", .jstr v)]

mutual

/-- `parse_const(node)`: decode a typed literal form. -/
def parse_const : SNode → Option JVal
  | .list (SNode.atom head :: rest) =>
    if ¬(pstr ".const").isSuffixOf head then none
    else if head = pstr "list.const" then
      match parseConstList rest with
      | some items =>
        some (.jobj [(pstr "type", .jstr (pstr "list")), (pstr "items", .jarr items)])
      | none => none
    else
      let typeName := head.take (head.length - 6)
      if ¬SUPPORTED_VALUE_TYPES.contains typeName then none
      else if typeName = pstr "str" ∨ typeName = pstr "string" ∨
          typeName = pstr "char" then
        match rest with
        | SNode.strTok v :: _ => some (constObj typeName v)
        | _ => none
      else
        match rest with
        | SNode.atom v :: _ => some (constObj typeName v)
        | _ => none
  | _ => none

/-- Decode a list of literal forms, failing if any child fails (the
`for` loops of `parse_const`, `parse_invoke` and `assert_return`). -/
def parseConstList : List SNode → Option (List JVal)
  | [] => some []
  | n :: rest =>
    match parse_const n, parseConstList rest with
    | some v, some vs => some (v :: vs)
    | _, _ => none

end

/-- The action dict returned by `parse_invoke`. -/
structure InvokeAct where
  inst : Option (List Nat)
  fname : List Nat
  args : List JVal

/-- `parse_invoke(node)`: optional `$`-prefixed instance atom, a string
literal field name, then constant arguments. -/
def parse_invoke : Option SNode → Option InvokeAct
  | some (.list (SNode.atom h :: rest)) =>
    if h ≠ pstr "invoke" then none
    else
      let p : Option (List Nat) × List SNode :=
        match rest with
        | SNode.atom a :: t => if [36].isPrefixOf a then (some a, t) else (none, rest)
        | _ => (none, rest)
      match p.2 with
      | SNode.strTok f :: argNodes =>
        match parseConstList argNodes with
        | some args => some ⟨p.1, f, args⟩
        | none => none
      | _ => none
  | _ => none

/-- `decode_wat_bytes(s)`: identity on code points, `ValueError`
(`none`) when any point exceeds `0xFF`. -/
def decode_wat_bytes : List Nat → Option (List Nat)
  | [] => some []
  | c :: rest => if c > 255 then none else (decode_wat_bytes rest).map (c :: ·)

/-- The per-part loop of `parse_module_binary`. -/
def decodeParts : List SNode → Option (List Nat)
  | [] => some []
  | SNode.strTok s :: rest =>
    match decode_wat_bytes s, decodeParts rest with
    | some b, some bs => some (b ++ bs)
    | _, _ => none
  | _ => none

/-- `parse_module_binary(node)`. -/
def parse_module_binary : SNode → Option (List Nat)
  | .list (SNode.atom m :: SNode.atom b :: items) =>
    if m = pstr "module" ∧ b = pstr "binary" ∧ items.isEmpty = false then
      decodeParts items
    else none
  | _ => none

/-- `parse_component_name(node)`. -/
def parse_component_name : Option SNode → Option (List Nat)
  | some (.list (_ :: SNode.atom n :: _)) =>
    if [36].isPrefixOf n then some n else none
  | _ => none

/-- `parse_component_definition_name(node)`. -/
def parse_component_definition_name : Option SNode → Option (List Nat)
  | some (.list (_ :: SNode.atom d :: SNode.atom n :: _)) =>
    if d = pstr "definition" ∧ [36].isPrefixOf n then some n else none
  | _ => none

/-- `parse_component_instance(node)`: the alias name and the referenced
component name. -/
def parse_component_instance : Option SNode → Option (List Nat × List Nat)
  | some (.list (SNode.atom c0 :: SNode.atom c1 :: SNode.atom i :: SNode.atom c :: _)) =>
    if c0 = pstr "component" ∧ c1 = pstr "instance" then some (i, c) else none
  | _ => none

/-- `should_instantiate_component(node)`: constantly true. -/
def should_instantiate_component (_node : Option SNode) : Bool := true

/-! ## External tool adapter

The four subprocess invocations are modelled as oracle functions.  The
compiler and validator are keyed by `comp_idx` (the harness writes
`component_{idx}.wat`/`.wasm` scratch files, so within one run the
index determines the invocation); the module runner is keyed the same
way and the batch executor receives the serialized script. -/

/-- Captured output of one external process (`subprocess.run`). -/
structure ProcOut where
  returncode : Int
  stdout : List Nat
  stderr : List Nat

/-- Oracles for the four external tools. -/
structure Tools where
  compileOut : Nat → ProcOut
  validateOut : Nat → Bool → ProcOut
  runOut : Nat → ProcOut
  scriptOut : JVal → ProcOut

/-- `compile_component(text, tmp, idx)`: `none` plus a diagnostic on a
nonzero exit, otherwise the scratch output path
`tmp/component_{idx}.wasm`.  The `text` argument only reaches the
external compiler (it is written to `component_{idx}.wat`); since the
oracle is keyed by `idx`, the parameter is omitted here. -/
def compile_component (T : Tools) (tmp : List Nat) (idx : Nat) :
    Option (List Nat) × Option (List Nat) :=
  let r := T.compileOut idx
  if r.returncode ≠ 0 then
    let err := pyStrip (pyOr r.stderr r.stdout)
    (none, some (pyOr err (pstr "wasm-tools parse failed")))
  else (some (tmp ++ pstr "/component_" ++ natDec idx ++ pstr ".wasm"), none)

/-- `validate_component(bin, wasmoon, wit_names)`: classify the tool
output by its fixed substring markers.  The binary path argument only
selects the file for the external validator; it is always the
`component_{idx}.wasm` scratch artifact, so the oracle is keyed by
`idx` and the path parameter is omitted here. -/
def validate_component (T : Tools) (idx : Nat) (witNames : Bool) : Bool × List Nat :=
  let r := T.validateOut idx witNames
  let out := r.stdout ++ r.stderr
  if pyContains out (pstr "validate component error") ||
      pyContains out (pstr "parse component error") then (false, pyStrip out)
  else if pyContains out (pstr "component validated ok") then (true, pyStrip out)
  else (false, pyOr (pyStrip out) (pstr "unknown validation result"))

/-! ## Batch executor output decoding (`run_component_script`) -/

/-- Python `str.splitlines` boundary characters (except the `\r\n`
pair, handled separately). -/
def lineBoundary (c : Nat) : Bool :=
  c == 10 || c == 11 || c == 12 || c == 13 || c == 28 || c == 29 || c == 30 ||
  c == 133 || c == 8232 || c == 8233

/-- Worker of `str.splitlines`. -/
def pySplitlinesAux : List Nat → List Nat → List (List Nat)
  | [], cur => if cur = [] then [] else [cur.reverse]
  | 13 :: 10 :: rest, cur => cur.reverse :: pySplitlinesAux rest []
  | c :: rest, cur =>
    if lineBoundary c then cur.reverse :: pySplitlinesAux rest []
    else pySplitlinesAux rest (c :: cur)

/-- Python `s.splitlines()`. -/
def pySplitlines (s : List Nat) : List (List Nat) := pySplitlinesAux s []

/-- Worker of no-argument `str.split`. -/
def pySplitWSF : Nat → List Nat → List (List Nat)
  | 0, _ => []
  | fuel + 1, l =>
    let l1 := l.dropWhile pyIsSpace
    if l1 = [] then []
    else
      l1.takeWhile (fun c => !pyIsSpace c) ::
        pySplitWSF fuel (l1.dropWhile fun c => !pyIsSpace c)

/-- Python `s.split()` (split on whitespace runs, no empty parts). -/
def pySplitWS (l : List Nat) : List (List Nat) := pySplitWSF (l.length + 1) l

/-- Fold over the parts of a `RESULT` line; `none` models the
`ValueError` CPython raises from `int(...)` on a malformed count. -/
def procResultParts : List (List Nat) → Int × Int × Int → Option (Int × Int × Int)
  | [], acc => some acc
  | part :: rest, (p, f, s) =>
    if (pstr "passed=").isPrefixOf part then
      match pyInt (part.drop 7) with
      | some v => procResultParts rest (v, f, s)
      | none => none
    else if (pstr "failed=").isPrefixOf part then
      match pyInt (part.drop 7) with
      | some v => procResultParts rest (p, v, s)
      | none => none
    else if (pstr "skipped=").isPrefixOf part then
      match pyInt (part.drop 8) with
      | some v => procResultParts rest (p, f, v)
      | none => none
    else procResultParts rest (p, f, s)

/-- Fold over the (stripped) output lines of the batch executor. -/
def procLines :
    List (List Nat) → Int × Int × Int × List (List Nat) × Bool →
      Option (Int × Int × Int × List (List Nat) × Bool)
  | [], acc => some acc
  | l :: rest, (p, f, s, fails, saw) =>
    let line := pyStrip l
    if (pstr "RESULT ").isPrefixOf line then
      match procResultParts (pySplitWS (line.drop 7)) (p, f, s) with
      | some (p2, f2, s2) => procLines rest (p2, f2, s2, fails, true)
      | none => none
    else if (pstr "FAIL ").isPrefixOf line then
      procLines rest (p, f, s, fails ++ [line.drop 5], saw)
    else procLines rest (p, f, s, fails, saw)

/-- Decoded batch-executor result. -/
structure ScriptRes where
  passed : Int
  failed : Int
  skipped : Int
  failures : List (List Nat)
  raw : List Nat
  sawResult : Bool

/-- The combined executor output, with the `(exit=...)` placeholder
substituted when it is blank (`out` in `run_component_script`). -/
def scriptRawOut (T : Tools) (script : JVal) : List Nat :=
  let r := T.scriptOut script
  let out0 := r.stdout ++ r.stderr
  if pyStrip out0 = [] then pstr "(exit=" ++ intDec r.returncode ++ pstr ")"
  else out0

/-- `run_component_script(script, wasmoon, tmp)`. -/
def run_component_script (T : Tools) (script : JVal) : Option ScriptRes :=
  let out := scriptRawOut T script
  match procLines (pySplitlines out) (0, 0, 0, [], false) with
  | none => none
  | some (p, f, s, fails, saw) => some ⟨p, f, s, fails, pyStrip out, saw⟩

/-! ## The per-file interpreter (`run_file`) -/

/-- Mutable per-file state of `run_file`'s classification loop.
`calls` is a ghost counter of external processes spawned by the
classifier (it influences nothing else). -/
structure RunSt where
  passed : Int
  failed : Int
  failures : List (List Nat)
  defined : List (List Nat)
  anonDefCount : Nat
  formIdx : Nat
  curCmd : List Nat
  compIdx : Nat
  commands : List JVal
  calls : Nat

/-- Initial per-file state. -/
def initSt : RunSt :=
  { passed := 0, failed := 0, failures := [], defined := [], anonDefCount := 0,
    formIdx := 0, curCmd := [], compIdx := 0, commands := [], calls := 0 }

/-- The failure description `#{idx} {cmd}: {reason}`. -/
def failMsg (idx : Nat) (cmd reason : List Nat) : List Nat :=
  pstr "#" ++ natDec idx ++ pstr " " ++ cmd ++ pstr ": " ++ reason

/-- The nested `fail(reason)` helper: always count, record the
description only below the 50-entry cap. -/
def applyFail (st : RunSt) (reason : List Nat) : RunSt :=
  { st with
    failed := st.failed + 1,
    failures :=
      if st.failures.length < 50 then
        st.failures ++ [failMsg st.formIdx st.curCmd reason]
      else st.failures }

/-- Command dict for a `component instance` alias. -/
def cmdComponentInstance (instName compName : List Nat) : JVal :=
  .jobj [(pstr "type", .jstr (pstr "component_instance")),
         (pstr "name", .jstr instName), (pstr "component", .jstr compName)]

/-- Command dict for a `component definition`. -/
def cmdComponentDefinition (name path : List Nat) : JVal :=
  .jobj [(pstr "type", .jstr (pstr "component_definition")),
         (pstr "name", .jstr name), (pstr "path", .jstr path)]

/-- Optional string field value. -/
def optStr : Option (List Nat) → JVal
  | some s => .jstr s
  | none => .null

/-- Command dict for a plain `component`. -/
def cmdComponent (name? : Option (List Nat)) (path : List Nat) (inst : Bool) : JVal :=
  .jobj [(pstr "type", .jstr (pstr "component")), (pstr "name", optStr name?),
         (pstr "path", .jstr path), (pstr "instantiate", .jbool inst)]

/-- Command dict for `assert_unlinkable` (also used by the
component-shaped `assert_trap`). -/
def cmdAssertUnlinkable (path : List Nat) (text? : Option (List Nat)) : JVal :=
  .jobj [(pstr "type", .jstr (pstr "assert_unlinkable")),
         (pstr "path", .jstr path), (pstr "text", optStr text?)]

/-- Command dict for `assert_return`. -/
def cmdAssertReturn (a : InvokeAct) (expected : List JVal) : JVal :=
  .jobj [(pstr "type", .jstr (pstr "assert_return")), (pstr "instance", optStr a.inst),
         (pstr "field", .jstr a.fname), (pstr "args", .jarr a.args),
         (pstr "expected", .jarr expected)]

/-- Command dict for invoke-shaped `assert_trap`. -/
def cmdAssertTrap (a : InvokeAct) (text? : Option (List Nat)) : JVal :=
  .jobj [(pstr "type", .jstr (pstr "assert_trap")), (pstr "instance", optStr a.inst),
         (pstr "field", .jstr a.fname), (pstr "args", .jarr a.args),
         (pstr "text", optStr text?)]

/-- Command dict for a top-level `invoke`. -/
def cmdInvoke (a : InvokeAct) : JVal :=
  .jobj [(pstr "type", .jstr (pstr "invoke")), (pstr "instance", optStr a.inst),
         (pstr "field", .jstr a.fname), (pstr "args", .jarr a.args)]

/-- The `component` branch of `run_file`'s dispatch. -/
def handleComponent (T : Tools) (wn : Bool) (tmp : List Nat) (st : RunSt)
    (form : List Nat) : RunSt :=
  let node := parse_form form
  let nk := normalize_component_form form
  if nk.2 = pstr "instance" then
    match parse_component_instance node with
    | none => applyFail st (pstr "unsupported component instance form")
    | some (instName, compName) =>
      if compName ∈ st.defined then
        { st with commands := st.commands ++ [cmdComponentInstance instName compName] }
      else
        applyFail st
          (pstr "component instance references unknown component " ++ compName)
  else
    match nk.1 with
    | none => applyFail st (pstr "unsupported component form kind=" ++ nk.2)
    | some _normalized =>
      let idx := st.compIdx
      let st := { st with compIdx := st.compIdx + 1, calls := st.calls + 1 }
      match compile_component T tmp idx with
      | (none, err) => applyFail st (pstr "component parse failed: " ++ err.getD [])
      | (some path, _) =>
        let st := { st with calls := st.calls + 1 }
        let v := validate_component T idx wn
        if ¬v.1 then applyFail st (pstr "component validate failed: " ++ v.2)
        else if nk.2 = pstr "definition" then
          match parse_component_definition_name node with
          | some name =>
            { st with
              commands := st.commands ++ [cmdComponentDefinition name path],
              defined := st.defined ++ [name] }
          | none =>
            let n := st.anonDefCount + 1
            let name := pstr "$anon_def_" ++ natDec n
            { st with
              anonDefCount := n,
              commands := st.commands ++ [cmdComponentDefinition name path],
              defined := st.defined ++ [name] }
        else
          let name? := parse_component_name node
          let st :=
            { st with
              commands :=
                st.commands ++
                  [cmdComponent name? path (should_instantiate_component node)] }
          match name? with
          | some n => { st with defined := st.defined ++ [n] }
          | none => st

/-- The `assert_invalid` branch. -/
def handleAssertInvalid (T : Tools) (wn : Bool) (tmp : List Nat) (st : RunSt)
    (form : List Nat) : RunSt :=
  let node := parse_form form
  let expected := extract_expected_message node 2
  match find_component_form form with
  | none => applyFail st (pstr "assert_invalid missing component form")
  | some cf =>
    let nk := normalize_component_form cf
    if nk.2 = pstr "instance" ∨ nk.1 = none then
      applyFail st (pstr "assert_invalid uses unsupported component instance form")
    else
      let idx := st.compIdx
      let st := { st with compIdx := st.compIdx + 1, calls := st.calls + 1 }
      match compile_component T tmp idx with
      | (none, err) =>
        match expected with
        | some m =>
          applyFail st
            (pstr "assert_invalid parse failed: " ++ m ++ pstr ": " ++ err.getD [])
        | none => applyFail st (pstr "assert_invalid parse failed: " ++ err.getD [])
      | (some _path, _) =>
        let st := { st with calls := st.calls + 1 }
        let v := validate_component T idx wn
        if v.1 then
          match expected with
          | some m => applyFail st (pstr "assert_invalid unexpectedly validated: " ++ m)
          | none => applyFail st (pstr "assert_invalid unexpectedly validated")
        else if is_unsupported_error v.2 then
          applyFail st (pstr "assert_invalid failed due to unsupported feature: " ++ v.2)
        else { st with passed := st.passed + 1 }

/-- The `assert_malformed` branch, including the legacy
`(module binary ...)` fixture path. -/
def handleAssertMalformed (T : Tools) (wn : Bool) (tmp : List Nat) (st : RunSt)
    (form : List Nat) : RunSt :=
  let node := parse_form form
  let expected := extract_expected_message node 2
  match find_component_form form with
  | none =>
    let data? : Option (List Nat) :=
      match node with
      | some (.list l) =>
        match l.get? 1 with
        | some n1 => parse_module_binary n1
        | none => none
      | _ => none
    match data? with
    | some _data =>
      let st := { st with compIdx := st.compIdx + 1, calls := st.calls + 1 }
      let r := T.runOut (st.compIdx - 1)
      if r.returncode ≠ 0 then { st with passed := st.passed + 1 }
      else
        match expected with
        | some m => applyFail st (pstr "assert_malformed unexpectedly ran: " ++ m)
        | none => applyFail st (pstr "assert_malformed unexpectedly ran")
    | none => applyFail st (pstr "assert_malformed missing component form")
  | some cf =>
    let nk := normalize_component_form cf
    if nk.2 = pstr "instance" ∨ nk.1 = none then
      applyFail st (pstr "assert_malformed uses unsupported component instance form")
    else
      let idx := st.compIdx
      let st := { st with compIdx := st.compIdx + 1, calls := st.calls + 1 }
      match compile_component T tmp idx with
      | (none, _err) => { st with passed := st.passed + 1 }
      | (some _path, _) =>
        let st := { st with calls := st.calls + 1 }
        let v := validate_component T idx wn
        if is_unsupported_error v.2 then
          applyFail st
            (pstr "assert_malformed failed due to unsupported feature: " ++ v.2)
        else
          match expected with
          | some m => applyFail st (pstr "assert_malformed unexpectedly parsed: " ++ m)
          | none => applyFail st (pstr "assert_malformed unexpectedly parsed")

/-- The `assert_unlinkable` branch. -/
def handleAssertUnlinkable (T : Tools) (wn : Bool) (tmp : List Nat) (st : RunSt)
    (form : List Nat) : RunSt :=
  let _node := parse_form form
  match find_component_form form with
  | none => applyFail st (pstr "assert_unlinkable missing component form")
  | some cf =>
    let nk := normalize_component_form cf
    if nk.2 = pstr "instance" ∨ nk.1 = none then
      applyFail st (pstr "assert_unlinkable uses unsupported component instance form")
    else
      let idx := st.compIdx
      let st := { st with compIdx := st.compIdx + 1, calls := st.calls + 1 }
      match compile_component T tmp idx with
      | (none, err) =>
        applyFail st (pstr "assert_unlinkable parse failed: " ++ err.getD [])
      | (some path, _) =>
        let st := { st with calls := st.calls + 1 }
        let v := validate_component T idx wn
        if ¬v.1 then applyFail st (pstr "assert_unlinkable validate failed: " ++ v.2)
        else
          let node2 := parse_form form
          let textMsg := extract_expected_message node2 2
          { st with commands := st.commands ++ [cmdAssertUnlinkable path textMsg] }

/-- The `assert_return` branch. -/
def handleAssertReturn (st : RunSt) (form : List Nat) : RunSt :=
  let node := parse_form form
  match node with
  | some (.list l) =>
    if l.length < 2 then applyFail st (pstr "assert_return malformed")
    else
      match parse_invoke (l.get? 1) with
      | none => applyFail st (pstr "assert_return unsupported invoke form")
      | some act =>
        match parseConstList (l.drop 2) with
        | none => applyFail st (pstr "assert_return unsupported expected value")
        | some expected =>
          { st with commands := st.commands ++ [cmdAssertReturn act expected] }
  | _ => applyFail st (pstr "assert_return malformed")

/-- The `assert_trap` branch: an invoke action when possible, otherwise
the component-instantiation form routed as `assert_unlinkable`. -/
def handleAssertTrap (T : Tools) (wn : Bool) (tmp : List Nat) (st : RunSt)
    (form : List Nat) : RunSt :=
  let node := parse_form form
  match node with
  | some (.list l) =>
    if l.length < 2 then applyFail st (pstr "assert_trap malformed")
    else
      let msg? := extract_expected_message node 2
      match parse_invoke (l.get? 1) with
      | some act => { st with commands := st.commands ++ [cmdAssertTrap act msg?] }
      | none =>
        match find_component_form form with
        | none => applyFail st (pstr "assert_trap unsupported invoke form")
        | some cf =>
          let nk := normalize_component_form cf
          if nk.2 = pstr "instance" ∨ nk.1 = none then
            applyFail st (pstr "assert_trap uses unsupported component instance form")
          else
            let idx := st.compIdx
            let st := { st with compIdx := st.compIdx + 1, calls := st.calls + 1 }
            match compile_component T tmp idx with
            | (none, err) =>
              applyFail st (pstr "assert_trap component parse failed: " ++ err.getD [])
            | (some path, _) =>
              let st := { st with calls := st.calls + 1 }
              let v := validate_component T idx wn
              if ¬v.1 then
                applyFail st (pstr "assert_trap component validate failed: " ++ v.2)
              else
                { st with commands := st.commands ++ [cmdAssertUnlinkable path msg?] }
  | _ => applyFail st (pstr "assert_trap malformed")

/-- The `invoke` branch. -/
def handleInvoke (st : RunSt) (form : List Nat) : RunSt :=
  let node := parse_form form
  match parse_invoke node with
  | none => applyFail st (pstr "invoke unsupported form")
  | some act => { st with commands := st.commands ++ [cmdInvoke act] }

/-- The dispatch on the leading atom in `run_file`'s form loop. -/
def stepFormBody (T : Tools) (wn : Bool) (tmp : List Nat) (st : RunSt)
    (form : List Nat) : RunSt :=
  let cmd? := first_symbol form
  if cmd? = some (pstr "component") then handleComponent T wn tmp st form
  else if cmd? = some (pstr "assert_invalid") then handleAssertInvalid T wn tmp st form
  else if cmd? = some (pstr "assert_malformed") then handleAssertMalformed T wn tmp st form
  else if cmd? = some (pstr "assert_unlinkable") then handleAssertUnlinkable T wn tmp st form
  else if cmd? = some (pstr "assert_return") then handleAssertReturn st form
  else if cmd? = some (pstr "assert_trap") then handleAssertTrap T wn tmp st form
  else if cmd? = some (pstr "invoke") then handleInvoke st form
  else applyFail st (pstr "unhandled command: " ++ cmd?.getD (pstr "unknown"))

/-- One iteration of `run_file`'s form loop: bump the form counter,
remember the command atom, dispatch. -/
def stepForm (T : Tools) (wn : Bool) (tmp : List Nat) (st : RunSt)
    (form : List Nat) : RunSt :=
  stepFormBody T wn tmp
    { st with formIdx := st.formIdx + 1, curCmd := (first_symbol form).getD [] } form

/-- The classification loop of `run_file` over all top-level forms. -/
def classify_file (T : Tools) (wn : Bool) (tmp : List Nat) (text : List Nat) : RunSt :=
  (iter_forms text).foldl (stepForm T wn tmp) initSt

/-- `{k: v for k, v in cmd.items() if v is not None}`. -/
def compactObj : JVal → JVal
  | .jobj fs => .jobj (fs.filter fun kv => !kv.2.isNull)
  | v => v

/-- The serialized `{"commands": [...]}` script. -/
def build_script (cmds : List JVal) : JVal :=
  .jobj [(pstr "commands", .jarr (cmds.map compactObj))]

/-- The dict returned by `run_file`. -/
structure FileRes where
  passed : Int
  failed : Int
  skipped : Int
  failures : List (List Nat)

/-- `run_file(path, wasmoon, keep_tmp_on_failure)`: classify all forms,
submit the accumulated script (if any) to the batch executor, fold its
results in, and build the result dict.  `wn` is `wit_names_for_path(path)`
and `text` the file contents; `none` models the uncaught `ValueError`
when a `RESULT` count fails to parse. -/
def run_file (T : Tools) (wn : Bool) (tmp : List Nat) (keepTmp : Bool)
    (text : List Nat) : Option FileRes :=
  let st := classify_file T wn tmp text
  let st? : Option RunSt :=
    if st.commands.isEmpty then some st
    else
      match run_component_script T (build_script st.commands) with
      | none => none
      | some r =>
        let st := { st with passed := st.passed + r.passed, failed := st.failed + r.failed }
        let st :=
          if r.skipped ≠ 0 then
            applyFail { st with failed := st.failed + r.skipped }
              (pstr "component-test skipped " ++ intDec r.skipped ++ pstr " command(s)")
          else st
        let st := { st with failures := st.failures ++ r.failures }
        let st :=
          if ¬r.sawResult then
            applyFail st (pstr "component-test failed: " ++ pyOr r.raw (pstr "no output"))
          else st
        some st
  match st? with
  | none => none
  | some st =>
    let fs :=
      if keepTmp ∧ st.failed > 0 then
        st.failures ++ [pstr "(debug) kept tmp dir: " ++ tmp]
      else st.failures
    some ⟨st.passed, st.failed, 0, fs⟩

/-! ## Derived notions and concrete fixtures used by the verification -/

/-- The seven recognized command atoms of the dispatch. -/
def knownCommands : List (List Nat) :=
  [pstr "component", pstr "assert_invalid", pstr "assert_malformed",
   pstr "assert_unlinkable", pstr "assert_return", pstr "assert_trap", pstr "invoke"]

/-- The 22 hexadecimal digit characters accepted by the `\\XX` escape. -/
def hexDigitChars : List Nat := pstr "0123456789abcdefABCDEF"

/-- Tool oracles under which every component compile and validate call
succeeds (zero compiler exit, validator output carrying the ok marker). -/
def ToolsOk (T : Tools) : Prop :=
  ∀ idx, (T.compileOut idx).returncode = 0 ∧
    ∀ wn, (validate_component T idx wn).1 = true

/-- A form that the classifier treats as an anonymous component
definition: head atom `component`, normalized kind `definition`, and no
explicit `$`-name. -/
def isAnonDefForm (f : List Nat) : Bool :=
  decide (first_symbol f = some (pstr "component")) &&
  decide ((normalize_component_form f).2 = pstr "definition") &&
  decide (parse_component_definition_name (parse_form f) = none)

/-- The `FAIL ` detail lines collected by `run_component_script` from a
given output-line list. -/
def collectFails (lines : List (List Nat)) : List (List Nat) :=
  lines.filterMap fun l =>
    if (pstr "FAIL ").isPrefixOf (pyStrip l) then some ((pyStrip l).drop 5) else none

/-- Fields of a serialized command object. -/
def fieldsOf : JVal → List (List Nat × JVal)
  | .jobj fs => fs
  | _ => []

/-- A concrete oracle set: compiles succeed, validations report the ok
marker, module runs exit 0, and the batch executor reports an all-zero
`RESULT` line. -/
def toolsOK : Tools :=
  { compileOut := fun _ => ⟨0, [], []⟩,
    validateOut := fun _ _ => ⟨0, pstr "component validated ok", []⟩,
    runOut := fun _ => ⟨0, [], []⟩,
    scriptOut := fun _ => ⟨0, pstr "RESULT passed=0 failed=0 skipped=0", []⟩ }

/-- A concrete scratch-directory path. -/
def tmp0 : List Nat := pstr "/tmp/wasmoon_component_wast_x"

/-- Batch-executor output consisting of 51 `FAIL` lines and no `RESULT`
line. -/
def out51 : List Nat := (List.replicate 51 (pstr "FAIL a\n")).flatten

/-- Oracles whose batch executor emits 51 `FAIL` lines. -/
def tools51 : Tools := { toolsOK with scriptOut := fun _ => ⟨0, out51, []⟩ }

/-- Oracles whose batch executor emits no `RESULT` line at all. -/
def toolsNoResult : Tools := { toolsOK with scriptOut := fun _ => ⟨1, pstr "kaboom", []⟩ }

/-- Oracles whose batch executor reports two skipped commands. -/
def toolsSkip : Tools :=
  { toolsOK with
    scriptOut := fun _ => ⟨0, pstr "RESULT passed=1 failed=0 skipped=2\nFAIL boom", []⟩ }

/-- Oracles whose compiler rejects the first component (exit code 1,
diagnostic `bad` on stderr) and accepts every later one; validation
always reports ok. -/
def toolsFail0 : Tools :=
  { toolsOK with
    compileOut := fun idx => if idx == 0 then ⟨1, [], pstr "bad"⟩ else ⟨0, [], []⟩ }

/-! ## General lemmas about the embedded program -/

theorem applyFail_failures_length_le (st : RunSt) (r : List Nat)
    (h : st.failures.length ≤ 50) : (applyFail st r).failures.length ≤ 50 := by
  unfold applyFail
  split <;> simp <;> omega

theorem normalize_cases (form : List Nat) :
    ((normalize_component_form form).2 = pstr "definition" ∧
      (normalize_component_form form).1.isSome) ∨
    ((normalize_component_form form).2 = pstr "instance" ∧
      (normalize_component_form form).1 = none) ∨
    ((normalize_component_form form).2 = pstr "unknown" ∧
      (normalize_component_form form).1 = none) ∨
    ((normalize_component_form form).2 = pstr "component" ∧
      (normalize_component_form form).1 = some form) := by
  unfold normalize_component_form
  by_cases h1 : (read_symbol form 1).1 = some (pstr "component")
  · by_cases h2 : (read_symbol form (read_symbol form 1).2).1 = some (pstr "definition")
    · rcases h3 : (read_symbol form (read_symbol form (read_symbol form 1).2).2).1 with - | s3
      · simp [h1, h2, h3]
      · by_cases h4 : [36].isPrefixOf s3 <;> simp [h1, h2, h3, h4]
    · by_cases h5 :
          (read_symbol form (read_symbol form 1).2).1 = some (pstr "instance") <;>
        simp [h1, h2, h5, show pstr "instance" ≠ pstr "definition" from by decide]
  · simp [h1]

theorem compile_component_ok (T : Tools) (tmp : List Nat) (idx : Nat)
    (h : (T.compileOut idx).returncode = 0) :
    compile_component T tmp idx =
      (some (tmp ++ pstr "/component_" ++ natDec idx ++ pstr ".wasm"), none) := by
  simp [compile_component, h]

theorem handleAssertInvalid_anonDefCount (T : Tools) (wn : Bool) (tmp : List Nat)
    (st : RunSt) (form : List Nat) :
    (handleAssertInvalid T wn tmp st form).anonDefCount = st.anonDefCount := by
  unfold handleAssertInvalid
  simp only [applyFail]
  repeat' split
  all_goals simp

theorem handleAssertMalformed_anonDefCount (T : Tools) (wn : Bool) (tmp : List Nat)
    (st : RunSt) (form : List Nat) :
    (handleAssertMalformed T wn tmp st form).anonDefCount = st.anonDefCount := by
  unfold handleAssertMalformed
  simp only [applyFail]
  repeat' split
  all_goals simp

theorem handleAssertUnlinkable_anonDefCount (T : Tools) (wn : Bool) (tmp : List Nat)
    (st : RunSt) (form : List Nat) :
    (handleAssertUnlinkable T wn tmp st form).anonDefCount = st.anonDefCount := by
  unfold handleAssertUnlinkable
  simp only [applyFail]
  repeat' split
  all_goals simp

theorem handleAssertReturn_anonDefCount (st : RunSt) (form : List Nat) :
    (handleAssertReturn st form).anonDefCount = st.anonDefCount := by
  unfold handleAssertReturn
  simp only [applyFail]
  repeat' split
  all_goals simp

theorem handleAssertTrap_anonDefCount (T : Tools) (wn : Bool) (tmp : List Nat)
    (st : RunSt) (form : List Nat) :
    (handleAssertTrap T wn tmp st form).anonDefCount = st.anonDefCount := by
  unfold handleAssertTrap
  simp only [applyFail]
  repeat' split
  all_goals simp

theorem handleInvoke_anonDefCount (st : RunSt) (form : List Nat) :
    (handleInvoke st form).anonDefCount = st.anonDefCount := by
  unfold handleInvoke
  simp only [applyFail]
  repeat' split
  all_goals simp

theorem handleComponent_anon_step (T : Tools) (wn : Bool) (tmp : List Nat)
    (st : RunSt) (form : List Nat) (hok : ToolsOk T)
    (h1 : (normalize_component_form form).2 = pstr "definition")
    (h2 : parse_component_definition_name (parse_form form) = none) :
    handleComponent T wn tmp st form =
      { st with
        anonDefCount := st.anonDefCount + 1,
        commands := st.commands ++
          [cmdComponentDefinition (pstr "$anon_def_" ++ natDec (st.anonDefCount + 1))
            (tmp ++ pstr "/component_" ++ natDec st.compIdx ++ pstr ".wasm")],
        defined := st.defined ++ [pstr "$anon_def_" ++ natDec (st.anonDefCount + 1)],
        compIdx := st.compIdx + 1,
        calls := st.calls + 2 } := by
  obtain ⟨nrm, hnrm⟩ : ∃ x, (normalize_component_form form).1 = some x := by
    rcases normalize_cases form with ⟨-, h⟩ | ⟨h, -⟩ | ⟨h, -⟩ | ⟨h, -⟩
    · exact Option.isSome_iff_exists.mp h
    · rw [h1] at h; exact absurd h (by decide)
    · rw [h1] at h; exact absurd h (by decide)
    · rw [h1] at h; exact absurd h (by decide)
  have hv := (hok st.compIdx).2 wn
  have hni : ¬(normalize_component_form form).2 = pstr "instance" := by
    rw [h1]; decide
  unfold handleComponent
  rw [if_neg hni, hnrm]
  simp only []
  rw [compile_component_ok T tmp st.compIdx (hok st.compIdx).1]
  simp only [hv, h1, h2, not_true, ite_false, if_false]
  simp [Nat.add_assoc]

theorem handleComponent_anonDefCount (T : Tools) (wn : Bool) (tmp : List Nat)
    (st : RunSt) (form : List Nat) (hok : ToolsOk T) :
    (handleComponent T wn tmp st form).anonDefCount =
      st.anonDefCount +
        (if (normalize_component_form form).2 = pstr "definition" ∧
            parse_component_definition_name (parse_form form) = none then 1 else 0) := by
  by_cases hC : (normalize_component_form form).2 = pstr "definition" ∧
      parse_component_definition_name (parse_form form) = none
  · rw [if_pos hC, handleComponent_anon_step T wn tmp st form hok hC.1 hC.2]
  · rw [if_neg hC]
    unfold handleComponent
    simp only [applyFail]
    repeat' split
    all_goals simp_all

theorem stepForm_start (T : Tools) (wn : Bool) (tmp : List Nat) (st : RunSt)
    (form : List Nat) :
    stepForm T wn tmp st form =
      stepFormBody T wn tmp
        { st with formIdx := st.formIdx + 1, curCmd := (first_symbol form).getD [] }
        form := rfl

theorem stepForm_anonDefCount (T : Tools) (wn : Bool) (tmp : List Nat) (st : RunSt)
    (form : List Nat) (hok : ToolsOk T) :
    (stepForm T wn tmp st form).anonDefCount =
      st.anonDefCount + (if isAnonDefForm form then 1 else 0) := by
  rw [stepForm_start]
  unfold stepFormBody
  by_cases h1 : first_symbol form = some (pstr "component")
  · rw [if_pos h1, handleComponent_anonDefCount _ _ _ _ _ hok]
    simp only []
    congr 1
    by_cases h2 : (normalize_component_form form).2 = pstr "definition" <;>
      by_cases h3 : parse_component_definition_name (parse_form form) = none <;>
        simp [isAnonDefForm, h1, h2, h3]
  · have haf : isAnonDefForm form = false := by simp [isAnonDefForm, h1]
    rw [haf]
    rw [if_neg h1]
    repeat' split
    all_goals
      simp_all [handleAssertInvalid_anonDefCount, handleAssertMalformed_anonDefCount,
        handleAssertUnlinkable_anonDefCount, handleAssertReturn_anonDefCount,
        handleAssertTrap_anonDefCount, handleInvoke_anonDefCount, applyFail]

theorem foldl_anonDefCount (T : Tools) (wn : Bool) (tmp : List Nat)
    (hok : ToolsOk T) (forms : List (List Nat)) (st : RunSt) :
    (forms.foldl (stepForm T wn tmp) st).anonDefCount =
      st.anonDefCount + forms.countP isAnonDefForm := by
  induction forms generalizing st with
  | nil => simp
  | cons f rest ih =>
    rw [List.foldl_cons, ih, stepForm_anonDefCount T wn tmp st f hok, List.countP_cons]
    by_cases hf : isAnonDefForm f <;> simp [hf] <;> omega

theorem handleComponent_failures_le (T : Tools) (wn : Bool) (tmp : List Nat)
    (st : RunSt) (form : List Nat) (h : st.failures.length ≤ 50) :
    (handleComponent T wn tmp st form).failures.length ≤ 50 := by
  unfold handleComponent
  simp only [applyFail]
  repeat' split
  all_goals simp
  all_goals omega

theorem handleAssertInvalid_failures_le (T : Tools) (wn : Bool) (tmp : List Nat)
    (st : RunSt) (form : List Nat) (h : st.failures.length ≤ 50) :
    (handleAssertInvalid T wn tmp st form).failures.length ≤ 50 := by
  unfold handleAssertInvalid
  simp only [applyFail]
  repeat' split
  all_goals simp
  all_goals omega

theorem handleAssertMalformed_failures_le (T : Tools) (wn : Bool) (tmp : List Nat)
    (st : RunSt) (form : List Nat) (h : st.failures.length ≤ 50) :
    (handleAssertMalformed T wn tmp st form).failures.length ≤ 50 := by
  unfold handleAssertMalformed
  simp only [applyFail]
  repeat' split
  all_goals simp
  all_goals omega

theorem handleAssertUnlinkable_failures_le (T : Tools) (wn : Bool) (tmp : List Nat)
    (st : RunSt) (form : List Nat) (h : st.failures.length ≤ 50) :
    (handleAssertUnlinkable T wn tmp st form).failures.length ≤ 50 := by
  unfold handleAssertUnlinkable
  simp only [applyFail]
  repeat' split
  all_goals simp
  all_goals omega

theorem handleAssertReturn_failures_le (st : RunSt) (form : List Nat)
    (h : st.failures.length ≤ 50) :
    (handleAssertReturn st form).failures.length ≤ 50 := by
  unfold handleAssertReturn
  simp only [applyFail]
  repeat' split
  all_goals simp
  all_goals omega

theorem handleAssertTrap_failures_le (T : Tools) (wn : Bool) (tmp : List Nat)
    (st : RunSt) (form : List Nat) (h : st.failures.length ≤ 50) :
    (handleAssertTrap T wn tmp st form).failures.length ≤ 50 := by
  unfold handleAssertTrap
  simp only [applyFail]
  repeat' split
  all_goals simp
  all_goals omega

theorem handleInvoke_failures_le (st : RunSt) (form : List Nat)
    (h : st.failures.length ≤ 50) :
    (handleInvoke st form).failures.length ≤ 50 := by
  unfold handleInvoke
  simp only [applyFail]
  repeat' split
  all_goals simp
  all_goals omega

theorem stepForm_failures_le (T : Tools) (wn : Bool) (tmp : List Nat) (st : RunSt)
    (form : List Nat) (h : st.failures.length ≤ 50) :
    (stepForm T wn tmp st form).failures.length ≤ 50 := by
  rw [stepForm_start]
  unfold stepFormBody
  dsimp only
  repeat' split
  · exact handleComponent_failures_le _ _ _ _ _ h
  · exact handleAssertInvalid_failures_le _ _ _ _ _ h
  · exact handleAssertMalformed_failures_le _ _ _ _ _ h
  · exact handleAssertUnlinkable_failures_le _ _ _ _ _ h
  · exact handleAssertReturn_failures_le _ _ h
  · exact handleAssertTrap_failures_le _ _ _ _ _ h
  · exact handleInvoke_failures_le _ _ h
  · exact applyFail_failures_length_le _ _ h

theorem foldl_failures_le (T : Tools) (wn : Bool) (tmp : List Nat)
    (forms : List (List Nat)) (st : RunSt) (h : st.failures.length ≤ 50) :
    (forms.foldl (stepForm T wn tmp) st).failures.length ≤ 50 := by
  induction forms generalizing st with
  | nil => simpa using h
  | cons f rest ih =>
    rw [List.foldl_cons]
    exact ih _ (stepForm_failures_le T wn tmp st f h)

theorem procLines_no_result (lines : List (List Nat)) (p f s : Int)
    (fails : List (List Nat)) (saw : Bool)
    (h : ∀ l ∈ lines, ¬(pstr "RESULT ").isPrefixOf (pyStrip l)) :
    procLines lines (p, f, s, fails, saw) =
      some (p, f, s, fails ++ collectFails lines, saw) := by
  induction lines generalizing fails with
  | nil => simp [procLines, collectFails]
  | cons l rest ih =>
    have hl := h l (by simp)
    have hrest : ∀ x ∈ rest, ¬(pstr "RESULT ").isPrefixOf (pyStrip x) :=
      fun x hx => h x (by simp [hx])
    unfold procLines
    simp only []
    rw [if_neg hl]
    by_cases hf : (pstr "FAIL ").isPrefixOf (pyStrip l)
    · rw [if_pos hf, ih _ hrest]
      simp_all [collectFails, List.filterMap_cons]
    · rw [if_neg hf, ih _ hrest]
      simp_all [collectFails, List.filterMap_cons]

theorem run_component_script_no_result (T : Tools) (script : JVal)
    (h : ∀ l ∈ pySplitlines (scriptRawOut T script),
      ¬(pstr "RESULT ").isPrefixOf (pyStrip l)) :
    run_component_script T script =
      some ⟨0, 0, 0, collectFails (pySplitlines (scriptRawOut T script)),
            pyStrip (scriptRawOut T script), false⟩ := by
  unfold run_component_script
  dsimp only
  rw [procLines_no_result (pySplitlines (scriptRawOut T script)) 0 0 0 [] false h]
  simp

theorem handleComponent_instance_unknown (T : Tools) (wn : Bool) (tmp : List Nat)
    (st : RunSt) (form : List Nat) (i c : List Nat)
    (hkind : (normalize_component_form form).2 = pstr "instance")
    (hinst : parse_component_instance (parse_form form) = some (i, c))
    (hundef : c ∉ st.defined) :
    handleComponent T wn tmp st form =
      applyFail st (pstr "component instance references unknown component " ++ c) := by
  unfold handleComponent
  rw [if_pos hkind, hinst]
  simp only []
  rw [if_neg hundef]

theorem handleComponent_instance_known (T : Tools) (wn : Bool) (tmp : List Nat)
    (st : RunSt) (form : List Nat) (i c : List Nat)
    (hkind : (normalize_component_form form).2 = pstr "instance")
    (hinst : parse_component_instance (parse_form form) = some (i, c))
    (hdef : c ∈ st.defined) :
    handleComponent T wn tmp st form =
      { st with commands := st.commands ++ [cmdComponentInstance i c] } := by
  unfold handleComponent
  rw [if_pos hkind, hinst]
  simp only []
  rw [if_pos hdef]

theorem iterFormsAux_count_le (fuel : Nat) :
    ∀ (xs : List Nat) (st : ScanSt),
      (iterFormsAux fuel xs st).2.length ≤
        xs.count 40 + (if st.acc.isSome then 1 else 0) := by
  induction fuel with
  | zero => intro xs st; simp [iterFormsAux]
  | succ n ih =>
    intro xs st
    match xs with
    | [] => simp [iterFormsAux]
    | c :: rest =>
      have htail : rest.tail.count 40 ≤ rest.count 40 :=
        (List.tail_sublist rest).count_le 40
      have hdrop : ((splitLine rest.tail).2).count 40 ≤ rest.tail.count 40 := by
        simp only [splitLine]
        exact (List.dropWhile_sublist _).count_le 40
      simp only [iterFormsAux]
      repeat' split
      all_goals try
        (refine le_trans (ih _ _) ?_
         simp_all only [ScanSt.push, Option.isSome_map, List.count_cons]
         split_ifs <;> omega)
      all_goals try
        (simp only [List.length_cons]
         have h2 := ih rest { st with depth := 0, acc := none }
         simp only [Option.isSome_none, Bool.false_eq_true, if_false] at h2
         rename_i hacc
         simp only [hacc, Option.isSome_some, if_true, List.count_cons]
         split_ifs <;> omega)
      all_goals try
        (refine le_trans (ih _ _) ?_
         simp only [ScanSt.push, Option.isSome_map]
         simp_all [List.count_cons]
         try split_ifs
         all_goals omega)
      all_goals simp_all

theorem iterFormsAux_fuel_succ (fuel : Nat) :
    ∀ (xs : List Nat) (st : ScanSt), xs.length ≤ fuel →
      iterFormsAux (fuel + 1) xs st = iterFormsAux fuel xs st := by
  induction fuel with
  | zero =>
    intro xs st hlen
    have : xs = [] := List.length_eq_zero.mp (Nat.le_zero.mp hlen)
    subst this
    rfl
  | succ n ih =>
    intro xs st hlen
    match xs with
    | [] => rfl
    | c :: rest =>
      have hr : rest.length ≤ n := by
        simp only [List.length_cons] at hlen
        omega
      have hrt : rest.tail.length ≤ n := by
        have := (List.tail_sublist rest).length_le
        omega
      have hsp : ((splitLine rest.tail).2).length ≤ n := by
        have h1 : ((splitLine rest.tail).2).length ≤ rest.tail.length := by
          simp only [splitLine]
          exact (List.dropWhile_sublist _).length_le
        omega
      show iterFormsAux (n + 1 + 1) (c :: rest) st = iterFormsAux (n + 1) (c :: rest) st
      simp only [iterFormsAux]
      repeat' split
      all_goals try (exact ih _ _ hr)
      all_goals try (exact ih _ _ hrt)
      all_goals try (exact ih _ _ hsp)
      all_goals try (rw [ih _ _ hr])

theorem iterFormsAux_fuel_ge (fuel extra : Nat) :
    ∀ (xs : List Nat) (st : ScanSt), xs.length ≤ fuel →
      iterFormsAux (fuel + extra) xs st = iterFormsAux fuel xs st := by
  induction extra with
  | zero => intro xs st _; rfl
  | succ k ih =>
    intro xs st hlen
    have h1 : fuel + (k + 1) = (fuel + k) + 1 := by omega
    rw [h1, iterFormsAux_fuel_succ (fuel + k) xs st (by omega), ih xs st hlen]

theorem push_head_inv (st : ScanSt) (cs : List Nat)
    (h : ∀ a, st.acc = some a → a.head? = some 40) :
    ∀ a, (st.push cs).acc = some a → a.head? = some 40 := by
  intro a ha
  simp only [ScanSt.push, Option.map_eq_some'] at ha
  obtain ⟨a0, ha0, rfl⟩ := ha
  rw [List.head?_append, h a0 ha0]
  rfl

theorem iterFormsAux_bracketed (fuel : Nat) :
    ∀ (xs : List Nat) (st : ScanSt),
      (∀ a, st.acc = some a → a.head? = some 40) →
      ∀ f ∈ (iterFormsAux fuel xs st).2, f.head? = some 40 ∧ f.getLast? = some 41 := by
  induction fuel with
  | zero => intro xs st _ f hf; simp [iterFormsAux] at hf
  | succ n ih =>
    intro xs st hinv f hf
    match xs with
    | [] => simp [iterFormsAux] at hf
    | c :: rest =>
      simp only [iterFormsAux] at hf
      repeat' split at hf
      all_goals try
        (refine ih _ _ ?_ f hf
         intro a ha
         exact push_head_inv st _ hinv a ha)
      all_goals try
        (refine ih _ _ ?_ f hf
         intro a ha
         exact hinv a ha)
      all_goals try
        (refine ih _ _ ?_ f hf
         intro a ha
         cases ha
         rfl)
      all_goals try
        (rename_i a0 heq
         simp only [List.mem_cons] at hf
         rcases hf with rfl | hf
         · refine ⟨?_, List.getLast?_concat _⟩
           have h0 := hinv a0 heq
           rw [List.head?_append, h0]
           rfl
         · exact ih _ _ (fun a ha => Option.noConfusion ha) f hf)

/-! ## Claim C1 -/

/-- C1 (counterexample): the file `(invoke $x "f")` references the
sigil-prefixed instance name `$x`, which is not in the (empty) per-file
registry; yet classification records no failure, and the invoke command
is forwarded to the RunScript, so `run_file` goes on to invoke the
batch executor on it.  This refutes the claim that invoke commands with
undefined instance names fail classification without any external tool
being invoked. -/
theorem c1_counterexample :
    (classify_file toolsOK true tmp0 (pstr "(invoke $x \"f\")")).failed = 0 ∧
    (classify_file toolsOK true tmp0 (pstr "(invoke $x \"f\")")).calls = 0 ∧
    (classify_file toolsOK true tmp0 (pstr "(invoke $x \"f\")")).defined = [] ∧
    (classify_file toolsOK true tmp0 (pstr "(invoke $x \"f\")")).commands =
      [cmdInvoke ⟨some (pstr "$x"), pstr "f", []⟩] :=
  ⟨rfl, rfl, rfl, rfl⟩

/-- C1 (amended): a `component instance` alias command whose referenced
component name is absent from the per-file registry fails
classification — the failed count increments by one, no command is
appended, and neither the registry nor the external-process counter
changes — so no external tool is invoked for it.  `invoke` (and
invoke-shaped assert) commands never consult the registry; an undefined
instance name there is forwarded to the batch executor instead (see the
counterexample). -/
theorem c1_instance_unknown_fails (T : Tools) (wn : Bool) (tmp : List Nat)
    (st : RunSt) (form : List Nat) (i c : List Nat)
    (hsym : first_symbol form = some (pstr "component"))
    (hkind : (normalize_component_form form).2 = pstr "instance")
    (hinst : parse_component_instance (parse_form form) = some (i, c))
    (hundef : c ∉ st.defined) :
    (stepForm T wn tmp st form).failed = st.failed + 1 ∧
    (stepForm T wn tmp st form).calls = st.calls ∧
    (stepForm T wn tmp st form).commands = st.commands ∧
    (stepForm T wn tmp st form).defined = st.defined := by
  rw [stepForm_start]
  unfold stepFormBody
  dsimp only
  rw [hsym, if_pos rfl]
  rw [handleComponent_instance_unknown T wn tmp
        { st with formIdx := st.formIdx + 1, curCmd := (some (pstr "component")).getD [] }
        form i c hkind hinst hundef]
  refine ⟨?_, ?_, ?_, ?_⟩ <;> simp [applyFail]

/-- C1 (witness): the amended theorem applied to the concrete alias
command `(component instance $i $c)` against an empty registry. -/
theorem c1_witness :
    (stepForm toolsOK true tmp0 initSt (pstr "(component instance $i $c)")).failed =
        initSt.failed + 1 ∧
    (stepForm toolsOK true tmp0 initSt (pstr "(component instance $i $c)")).calls =
        initSt.calls ∧
    (stepForm toolsOK true tmp0 initSt (pstr "(component instance $i $c)")).commands =
        initSt.commands ∧
    (stepForm toolsOK true tmp0 initSt (pstr "(component instance $i $c)")).defined =
        initSt.defined :=
  c1_instance_unknown_fails toolsOK true tmp0 initSt (pstr "(component instance $i $c)")
    (pstr "$i") (pstr "$c") (by decide) (by decide) (by decide) (by decide)

/-! ## Claim C2 -/

/-- C2: for every pair of hex digits, decoding the escape `\XX` inside
a string literal yields exactly one character whose code is the byte
value `16*hi + lo`; that value is at most `0xFF`, and the module-binary
byte decoder maps the one-character string back to exactly that byte,
with no reinterpretation. -/
theorem c2_byte_escape_roundtrip :
    ∀ c1 ∈ hexDigitChars, ∀ c2 ∈ hexDigitChars,
      parse_string [34, 92, c1, c2, 34] 0 =
        (some [16 * (hexVal? c1).getD 0 + (hexVal? c2).getD 0], 5) ∧
      16 * (hexVal? c1).getD 0 + (hexVal? c2).getD 0 ≤ 255 ∧
      decode_wat_bytes [16 * (hexVal? c1).getD 0 + (hexVal? c2).getD 0] =
        some [16 * (hexVal? c1).getD 0 + (hexVal? c2).getD 0] := by
  decide

/-- C2 (witness): the escape `\0A` decodes to the single byte 10. -/
theorem c2_witness :
    parse_string [34, 92, 48, 65, 34] 0 =
      (some [16 * (hexVal? 48).getD 0 + (hexVal? 65).getD 0], 5) ∧
    16 * (hexVal? 48).getD 0 + (hexVal? 65).getD 0 ≤ 255 ∧
    decode_wat_bytes [16 * (hexVal? 48).getD 0 + (hexVal? 65).getD 0] =
      some [16 * (hexVal? 48).getD 0 + (hexVal? 65).getD 0] :=
  c2_byte_escape_roundtrip 48 (by decide) 65 (by decide)

/-! ## Claim C3 -/

/-- C3 (counterexample): in the file
`(component $c)(component instance $i $c)(component instance $j $i)` —
with tools that compile and validate everything — the alias `$i` of the
existing component `$c` is processed successfully (its command is
appended to the RunScript), yet the registry still contains only `$c`;
the subsequent command referencing the alias name `$i` therefore fails
classification instead of resolving.  This refutes the claim that the
alias name is inserted into the registry. -/
theorem c3_counterexample :
    (classify_file toolsOK true tmp0
        (pstr "(component $c)(component instance $i $c)(component instance $j $i)")).failed
          = 1 ∧
    (classify_file toolsOK true tmp0
        (pstr "(component $c)(component instance $i $c)(component instance $j $i)")).defined
          = [pstr "$c"] ∧
    (classify_file toolsOK true tmp0
        (pstr "(component $c)(component instance $i $c)(component instance $j $i)")).failures
          = [pstr "#3 component: component instance references unknown component $i"] ∧
    (classify_file toolsOK true tmp0
        (pstr "(component $c)(component instance $i $c)(component instance $j $i)")).commands
          = [cmdComponent (some (pstr "$c")) (tmp0 ++ pstr "/component_0.wasm") true,
             cmdComponentInstance (pstr "$i") (pstr "$c")] :=
  ⟨rfl, rfl, rfl, rfl⟩

/-- C3 (amended): after a `component instance` alias command whose
referenced component name exists in the registry, the command
`component_instance` bound to the same referenced name is appended to
the RunScript, but the alias name is NOT inserted into the classifier's
registry (`defined` is unchanged), so a later `component instance`
command referencing the alias name fails classification (see the
counterexample); the alias binding itself is left to the batch
executor. -/
theorem c3_alias_appended_not_registered (T : Tools) (wn : Bool) (tmp : List Nat)
    (st : RunSt) (form : List Nat) (i c : List Nat)
    (hsym : first_symbol form = some (pstr "component"))
    (hkind : (normalize_component_form form).2 = pstr "instance")
    (hinst : parse_component_instance (parse_form form) = some (i, c))
    (hdef : c ∈ st.defined) :
    (stepForm T wn tmp st form).commands = st.commands ++ [cmdComponentInstance i c] ∧
    (stepForm T wn tmp st form).defined = st.defined ∧
    (stepForm T wn tmp st form).failed = st.failed ∧
    (stepForm T wn tmp st form).calls = st.calls := by
  rw [stepForm_start]
  unfold stepFormBody
  dsimp only
  rw [hsym, if_pos rfl]
  rw [handleComponent_instance_known T wn tmp
        { st with formIdx := st.formIdx + 1, curCmd := (some (pstr "component")).getD [] }
        form i c hkind hinst hdef]
  exact ⟨rfl, rfl, rfl, rfl⟩

/-- C3 (witness): the amended theorem applied to the concrete alias
`(component instance $i $c)` with `$c` in the registry. -/
theorem c3_witness :
    (stepForm toolsOK true tmp0 { initSt with defined := [pstr "$c"] }
        (pstr "(component instance $i $c)")).commands =
      { initSt with defined := [pstr "$c"] }.commands ++
        [cmdComponentInstance (pstr "$i") (pstr "$c")] ∧
    (stepForm toolsOK true tmp0 { initSt with defined := [pstr "$c"] }
        (pstr "(component instance $i $c)")).defined =
      { initSt with defined := [pstr "$c"] }.defined ∧
    (stepForm toolsOK true tmp0 { initSt with defined := [pstr "$c"] }
        (pstr "(component instance $i $c)")).failed =
      { initSt with defined := [pstr "$c"] }.failed ∧
    (stepForm toolsOK true tmp0 { initSt with defined := [pstr "$c"] }
        (pstr "(component instance $i $c)")).calls =
      { initSt with defined := [pstr "$c"] }.calls :=
  c3_alias_appended_not_registered toolsOK true tmp0 { initSt with defined := [pstr "$c"] }
    (pstr "(component instance $i $c)") (pstr "$i") (pstr "$c")
    (by decide) (by decide) (by decide) (by decide)

/-! ## Claim C4 -/

/-- C4 (counterexample): on the input text `)` the top-level scanner's
depth counter ends at `-1`, refuting the claim that the depth counter
never becomes negative. -/
theorem c4_counterexample :
    (iterFormsFinal (pstr ")")).depth = -1 ∧ (iterFormsFinal (pstr ")")).depth < 0 :=
  ⟨rfl, by decide⟩

/-- C4 (amended): the depth counter can go negative on unmatched
closing parentheses, but scanning any input always terminates after
consuming the whole text: each step consumes at least one character, so
the scan is already complete at fuel `length + 1`, and running the
machine with any amount of extra fuel changes nothing (third conjunct);
at most one form is yielded per opening parenthesis — in particular
unbalanced trailing text yields no further forms — and every yielded
form is a nonempty parenthesized group. -/
theorem c4_scan_bounded_bracketed (text : List Nat) :
    (iter_forms text).length ≤ text.count 40 ∧
    (∀ f ∈ iter_forms text, f ≠ [] ∧ f.head? = some 40 ∧ f.getLast? = some 41) ∧
    ∀ extra : Nat,
      iterFormsAux (text.length + 1 + extra) text scanInit =
        iterFormsAux (text.length + 1) text scanInit := by
  refine ⟨?_, ?_, ?_⟩
  · have h := iterFormsAux_count_le (text.length + 1) text scanInit
    simpa [iter_forms, scanInit] using h
  · intro f hf
    have h := iterFormsAux_bracketed (text.length + 1) text scanInit
      (fun a ha => Option.noConfusion ha) f hf
    refine ⟨?_, h.1, h.2⟩
    intro he
    rw [he] at h
    simp at h
  · intro extra
    exact iterFormsAux_fuel_ge (text.length + 1) extra text scanInit (by omega)

/-- C4 (witness): the amended theorem applied to the text `(a)`, whose
single yielded form is `(a)` itself. -/
theorem c4_witness :
    pstr "(a)" ∈ iter_forms (pstr "(a)") ∧
    pstr "(a)" ≠ [] ∧ (pstr "(a)").head? = some 40 ∧
    (pstr "(a)").getLast? = some 41 := by
  have hm : pstr "(a)" ∈ iter_forms (pstr "(a)") := by decide
  exact ⟨hm, (c4_scan_bounded_bracketed (pstr "(a)")).2.1 (pstr "(a)") hm⟩

/-! ## Claim C5 -/

/-- C5 (counterexample): the counter behind the synthesized
`$anon_def_N` names advances only when the component compiles and
validates successfully. In a file holding two anonymous
`component definition` forms, under oracles whose compiler rejects
the first component, the second source-order anonymous definition
(`N = 2`) is assigned the name `$anon_def_1`, not `$anon_def_2`: the
resulting script holds exactly that one definition command while the
file counts two anonymous definitions and one classification
failure. -/
theorem c5_counterexample :
    (classify_file toolsFail0 true tmp0
        (pstr "(component definition (a))(component definition (b))")).commands =
      [cmdComponentDefinition (pstr "$anon_def_1")
        (tmp0 ++ pstr "/component_1.wasm")] ∧
    ((iter_forms
        (pstr "(component definition (a))(component definition (b))")).countP
      isAnonDefForm = 2) ∧
    (classify_file toolsFail0 true tmp0
        (pstr "(component definition (a))(component definition (b))")).anonDefCount = 1 ∧
    (classify_file toolsFail0 true tmp0
        (pstr "(component definition (a))(component definition (b))")).failed = 1 :=
  ⟨rfl, rfl, rfl, rfl⟩

/-- Processing an anonymous-definition form after an arbitrary prefix
of forms assigns it the synthesized name carrying the count of
anonymous definitions in the prefix plus one, provided every component
compile/validate call succeeds. -/
theorem anonDefStep_naming (T : Tools) (wn : Bool) (tmp : List Nat)
    (hok : ToolsOk T) (pre : List (List Nat)) (f : List Nat)
    (hf : isAnonDefForm f = true) :
    ((pre ++ [f]).foldl (stepForm T wn tmp) initSt).anonDefCount =
        pre.countP isAnonDefForm + 1 ∧
    ((pre ++ [f]).foldl (stepForm T wn tmp) initSt).commands =
      (pre.foldl (stepForm T wn tmp) initSt).commands ++
        [cmdComponentDefinition
          (pstr "$anon_def_" ++ natDec (pre.countP isAnonDefForm + 1))
          (tmp ++ pstr "/component_" ++
            natDec ((pre.foldl (stepForm T wn tmp) initSt).compIdx) ++ pstr ".wasm")] := by
  have hprops : (first_symbol f = some (pstr "component") ∧
      (normalize_component_form f).2 = pstr "definition") ∧
      parse_component_definition_name (parse_form f) = none := by
    simpa [isAnonDefForm] using hf
  obtain ⟨⟨hA, hB⟩, hC⟩ := hprops
  have hcount : (pre.foldl (stepForm T wn tmp) initSt).anonDefCount =
      pre.countP isAnonDefForm := by
    have := foldl_anonDefCount T wn tmp hok pre initSt
    simpa [initSt] using this
  rw [List.foldl_append]
  simp only [List.foldl_cons, List.foldl_nil]
  rw [stepForm_start]
  unfold stepFormBody
  dsimp only
  rw [hA, if_pos rfl]
  rw [handleComponent_anon_step T wn tmp
        { pre.foldl (stepForm T wn tmp) initSt with
          formIdx := (pre.foldl (stepForm T wn tmp) initSt).formIdx + 1,
          curCmd := (some (pstr "component")).getD [] }
        f hok hB hC]
  exact ⟨by simp [hcount], by simp [hcount]⟩

/-- C5 (amended): for every file and oracles under which every
component compile/validate call succeeds, if the form at position `i`
of the file's top-level forms is an anonymous `component definition`,
then processing the file up to and including that form appends the
command carrying the synthesized name with counter value `N`, where
`N` counts the anonymous definitions among the earlier forms plus one
— independent of interleaved named definitions and other commands.
Re-processing the same file yields identical synthesized names because
the embedded interpreter is a pure function of the file text and the
oracles. Without the success hypothesis the source-order count is
wrong: the counter skips anonymous definitions that fail to compile
or validate. -/
theorem c5_anon_def_naming (T : Tools) (wn : Bool) (tmp : List Nat)
    (hok : ToolsOk T) (text : List Nat) (i : Nat) (f : List Nat)
    (hget : (iter_forms text).get? i = some f)
    (hf : isAnonDefForm f = true) :
    (((iter_forms text).take (i + 1)).foldl (stepForm T wn tmp) initSt).anonDefCount =
        ((iter_forms text).take i).countP isAnonDefForm + 1 ∧
    (((iter_forms text).take (i + 1)).foldl (stepForm T wn tmp) initSt).commands =
      (((iter_forms text).take i).foldl (stepForm T wn tmp) initSt).commands ++
        [cmdComponentDefinition
          (pstr "$anon_def_" ++
            natDec (((iter_forms text).take i).countP isAnonDefForm + 1))
          (tmp ++ pstr "/component_" ++
            natDec ((((iter_forms text).take i).foldl
              (stepForm T wn tmp) initSt).compIdx) ++ pstr ".wasm")] := by
  have htake : (iter_forms text).take (i + 1) = (iter_forms text).take i ++ [f] := by
    rw [List.take_succ]
    simp [← List.get?_eq_getElem?, hget]
  rw [htake]
  exact anonDefStep_naming T wn tmp hok ((iter_forms text).take i) f hf

/-- C5 (witness): in the file holding the anonymous definition
`(component definition (a))`, the interleaved named component
`(component $n)`, and then `(component definition (b))`, the third form
(position 2) is assigned counter value 2. -/
theorem c5_witness :
    (((iter_forms (pstr
        "(component definition (a))(component $n)(component definition (b))")).take
          (2 + 1)).foldl (stepForm toolsOK true tmp0) initSt).anonDefCount =
      ((iter_forms (pstr
        "(component definition (a))(component $n)(component definition (b))")).take
          2).countP isAnonDefForm + 1 ∧
    (((iter_forms (pstr
        "(component definition (a))(component $n)(component definition (b))")).take
          (2 + 1)).foldl (stepForm toolsOK true tmp0) initSt).commands =
      (((iter_forms (pstr
          "(component definition (a))(component $n)(component definition (b))")).take
            2).foldl (stepForm toolsOK true tmp0) initSt).commands ++
        [cmdComponentDefinition
          (pstr "$anon_def_" ++
            natDec (((iter_forms (pstr
              "(component definition (a))(component $n)(component definition (b))")).take
                2).countP isAnonDefForm + 1))
          (tmp0 ++ pstr "/component_" ++
            natDec ((((iter_forms (pstr
              "(component definition (a))(component $n)(component definition (b))")).take
                2).foldl (stepForm toolsOK true tmp0) initSt).compIdx) ++
            pstr ".wasm")] :=
  c5_anon_def_naming toolsOK true tmp0 (fun _idx => ⟨rfl, fun _wn => rfl⟩)
    (pstr "(component definition (a))(component $n)(component definition (b))") 2
    (pstr "(component definition (b))") (by decide) (by decide)

/-! ## Claim C6 -/

/-- C6 (counterexample): with a batch executor that emits 51 `FAIL`
lines, the result of processing `(invoke "f")` carries 51 failure
descriptions — the executor's `FAIL` details are appended past the
50-entry cap — refuting the claim that the failure list never exceeds
50 entries. -/
theorem c6_counterexample :
    (run_file tools51 true tmp0 false (pstr "(invoke \"f\")")).map
        (fun r => r.failures.length) = some 51 ∧ 50 < 51 :=
  ⟨rfl, by decide⟩

/-- C6 (amended): failure descriptions recorded by the per-command
`fail` helper are capped at 50 for every file and oracle set — the
classification loop never holds more than 50 descriptions; `FAIL` lines
from the batch executor (and the debug tmp-dir note) are appended
without consulting the cap, so the final list can exceed 50 (see the
counterexample). -/
theorem c6_classifier_failures_capped (T : Tools) (wn : Bool) (tmp text : List Nat) :
    (classify_file T wn tmp text).failures.length ≤ 50 :=
  foldl_failures_le T wn tmp (iter_forms text) initSt (by simp [initSt])

/-! ## Claim C7 -/

/-- C7: when the accumulated RunScript is non-empty and no output line
of the batch executor starts with `RESULT `, the whole batch adds
exactly one failure to the file's count; its description (recorded
while the list is under the cap) is `component-test failed: ` followed
by the raw executor output (or `no output` when that is empty); the
`FAIL` details, if any, are still collected. -/
theorem c7_no_result_single_failure (T : Tools) (wn : Bool) (tmp text : List Nat)
    (hcmds : (classify_file T wn tmp text).commands.isEmpty = false)
    (hno : ∀ l ∈ pySplitlines
        (scriptRawOut T (build_script (classify_file T wn tmp text).commands)),
      ¬(pstr "RESULT ").isPrefixOf (pyStrip l)) :
    run_file T wn tmp false text =
      some
        { passed := (classify_file T wn tmp text).passed,
          failed := (classify_file T wn tmp text).failed + 1,
          skipped := 0,
          failures :=
            if ((classify_file T wn tmp text).failures ++
                collectFails (pySplitlines
                  (scriptRawOut T
                    (build_script (classify_file T wn tmp text).commands)))).length
                < 50 then
              ((classify_file T wn tmp text).failures ++
                  collectFails (pySplitlines
                    (scriptRawOut T
                      (build_script (classify_file T wn tmp text).commands)))) ++
                [failMsg (classify_file T wn tmp text).formIdx
                  (classify_file T wn tmp text).curCmd
                  (pstr "component-test failed: " ++
                    pyOr
                      (pyStrip (scriptRawOut T
                        (build_script (classify_file T wn tmp text).commands)))
                      (pstr "no output"))]
            else
              (classify_file T wn tmp text).failures ++
                collectFails (pySplitlines
                  (scriptRawOut T
                    (build_script (classify_file T wn tmp text).commands))) } := by
  unfold run_file
  dsimp only
  rw [hcmds]
  simp only [Bool.false_eq_true, if_false]
  rw [run_component_script_no_result T
        (build_script (classify_file T wn tmp text).commands) hno]
  dsimp only
  simp [applyFail]

/-- C7 (witness): the theorem applied to `(invoke "f")` with an
executor that prints only `kaboom`. -/
theorem c7_witness :
    run_file toolsNoResult true tmp0 false (pstr "(invoke \"f\")") =
      some
        { passed :=
            (classify_file toolsNoResult true tmp0 (pstr "(invoke \"f\")")).passed,
          failed :=
            (classify_file toolsNoResult true tmp0 (pstr "(invoke \"f\")")).failed + 1,
          skipped := 0,
          failures :=
            if ((classify_file toolsNoResult true tmp0 (pstr "(invoke \"f\")")).failures ++
                collectFails (pySplitlines
                  (scriptRawOut toolsNoResult
                    (build_script (classify_file toolsNoResult true tmp0
                      (pstr "(invoke \"f\")")).commands)))).length
                < 50 then
              ((classify_file toolsNoResult true tmp0 (pstr "(invoke \"f\")")).failures ++
                  collectFails (pySplitlines
                    (scriptRawOut toolsNoResult
                      (build_script (classify_file toolsNoResult true tmp0
                        (pstr "(invoke \"f\")")).commands)))) ++
                [failMsg (classify_file toolsNoResult true tmp0
                    (pstr "(invoke \"f\")")).formIdx
                  (classify_file toolsNoResult true tmp0 (pstr "(invoke \"f\")")).curCmd
                  (pstr "component-test failed: " ++
                    pyOr
                      (pyStrip (scriptRawOut toolsNoResult
                        (build_script (classify_file toolsNoResult true tmp0
                          (pstr "(invoke \"f\")")).commands)))
                      (pstr "no output"))]
            else
              (classify_file toolsNoResult true tmp0 (pstr "(invoke \"f\")")).failures ++
                collectFails (pySplitlines
                  (scriptRawOut toolsNoResult
                    (build_script (classify_file toolsNoResult true tmp0
                      (pstr "(invoke \"f\")")).commands))) } :=
  c7_no_result_single_failure toolsNoResult true tmp0 (pstr "(invoke \"f\")")
    (by decide) (by decide)

/-! ## Claim C8 -/

/-- C8: a top-level form whose leading atom is none of the seven
recognized command atoms increments the file's failed count by exactly
one; a failure description naming the atom is recorded whenever fewer
than 50 descriptions have been recorded (the documented cap); the
passed count and the RunScript are untouched, so no such form is
silently dropped. -/
theorem c8_unknown_command_counted (T : Tools) (wn : Bool) (tmp : List Nat)
    (st : RunSt) (form : List Nat)
    (h : ∀ a ∈ knownCommands, first_symbol form ≠ some a) :
    (stepForm T wn tmp st form).failed = st.failed + 1 ∧
    (stepForm T wn tmp st form).passed = st.passed ∧
    (stepForm T wn tmp st form).commands = st.commands ∧
    (stepForm T wn tmp st form).failures =
      (if st.failures.length < 50 then
        st.failures ++
          [failMsg (st.formIdx + 1) ((first_symbol form).getD [])
            (pstr "unhandled command: " ++ (first_symbol form).getD (pstr "unknown"))]
      else st.failures) := by
  have h1 := h (pstr "component") (by simp [knownCommands])
  have h2 := h (pstr "assert_invalid") (by simp [knownCommands])
  have h3 := h (pstr "assert_malformed") (by simp [knownCommands])
  have h4 := h (pstr "assert_unlinkable") (by simp [knownCommands])
  have h5 := h (pstr "assert_return") (by simp [knownCommands])
  have h6 := h (pstr "assert_trap") (by simp [knownCommands])
  have h7 := h (pstr "invoke") (by simp [knownCommands])
  rw [stepForm_start]
  unfold stepFormBody
  dsimp only
  rw [if_neg h1, if_neg h2, if_neg h3, if_neg h4, if_neg h5, if_neg h6, if_neg h7]
  refine ⟨?_, ?_, ?_, ?_⟩ <;> simp [applyFail]

/-- C8 (witness): the theorem applied to the unrecognized form
`(frobnicate)` in the initial state. -/
theorem c8_witness :
    (stepForm toolsOK true tmp0 initSt (pstr "(frobnicate)")).failed =
        initSt.failed + 1 ∧
    (stepForm toolsOK true tmp0 initSt (pstr "(frobnicate)")).passed =
        initSt.passed ∧
    (stepForm toolsOK true tmp0 initSt (pstr "(frobnicate)")).commands =
        initSt.commands ∧
    (stepForm toolsOK true tmp0 initSt (pstr "(frobnicate)")).failures =
      (if initSt.failures.length < 50 then
        initSt.failures ++
          [failMsg (initSt.formIdx + 1)
            ((first_symbol (pstr "(frobnicate)")).getD [])
            (pstr "unhandled command: " ++
              (first_symbol (pstr "(frobnicate)")).getD (pstr "unknown"))]
      else initSt.failures) :=
  c8_unknown_command_counted toolsOK true tmp0 initSt (pstr "(frobnicate)")
    (by decide)

/-! ## Claim C9 -/

/-- C9 (counterexample): for the file `(invoke "f")` the serialized
script retains the field `args` even though its value is the empty
list: only `None`-valued fields (here `instance`) are omitted.  This
refutes the claim that every empty-valued field is omitted. -/
theorem c9_counterexample :
    build_script (classify_file toolsOK true tmp0 (pstr "(invoke \"f\")")).commands =
      JVal.jobj [(pstr "commands", JVal.jarr
        [JVal.jobj [(pstr "type", JVal.jstr (pstr "invoke")),
                    (pstr "field", JVal.jstr (pstr "f")),
                    (pstr "args", JVal.jarr [])]])] ∧
    (pstr "args", JVal.jarr []) ∈
      fieldsOf (JVal.jobj [(pstr "type", JVal.jstr (pstr "invoke")),
                           (pstr "field", JVal.jstr (pstr "f")),
                           (pstr "args", JVal.jarr [])]) :=
  ⟨rfl, by simp [fieldsOf]⟩

/-- C9 (amended): the serialization omits exactly the fields whose
value is Python `None`: no field of any compacted command object is
null.  Empty strings and empty argument lists are retained (see the
counterexample). -/
theorem c9_null_fields_dropped (cmds : List JVal) (obj : JVal)
    (kv : List Nat × JVal) (hobj : obj ∈ cmds.map compactObj)
    (hkv : kv ∈ fieldsOf obj) : kv.2.isNull = false := by
  obtain ⟨c, -, rfl⟩ := List.mem_map.mp hobj
  rcases c with - | s | b | xs | fs
  · simp [compactObj, fieldsOf] at hkv
  · simp [compactObj, fieldsOf] at hkv
  · simp [compactObj, fieldsOf] at hkv
  · simp [compactObj, fieldsOf] at hkv
  · simp only [compactObj, fieldsOf] at hkv
    have hp := (List.mem_filter.mp hkv).2
    simpa using hp

/-- C9 (witness): the amended theorem applied to the compacted command
of a bare invoke. -/
theorem c9_witness :
    ((pstr "type", JVal.jstr (pstr "invoke")) : List Nat × JVal).2.isNull = false :=
  c9_null_fields_dropped [cmdInvoke ⟨none, pstr "f", []⟩]
    (compactObj (cmdInvoke ⟨none, pstr "f", []⟩))
    (pstr "type", JVal.jstr (pstr "invoke"))
    (List.mem_map_of_mem _ (List.mem_singleton_self _))
    (List.mem_cons_self _ _)

/-! ## Claim C10 -/

/-- C10: every result dict produced by `run_file` has `skipped = 0`;
when the batch executor's `RESULT` line reports a nonzero skipped
count, that count is added to the file's failed count together with one
extra failure (whose description notes the skipped commands and is
recorded while the list is under the cap), rather than being reported
as skipped. -/
theorem c10_skipped_folded_into_failed (T : Tools) (wn : Bool) (tmp text : List Nat)
    (r : FileRes) (h : run_file T wn tmp false text = some r) :
    r.skipped = 0 ∧
    ∀ sr : ScriptRes,
      (classify_file T wn tmp text).commands.isEmpty = false →
      run_component_script T (build_script (classify_file T wn tmp text).commands) =
        some sr →
      sr.skipped ≠ 0 → sr.sawResult = true →
      r.failed = (classify_file T wn tmp text).failed + sr.failed + sr.skipped + 1 ∧
      r.failures =
        (if (classify_file T wn tmp text).failures.length < 50 then
          (classify_file T wn tmp text).failures ++
            [failMsg (classify_file T wn tmp text).formIdx
              (classify_file T wn tmp text).curCmd
              (pstr "component-test skipped " ++ intDec sr.skipped ++
                pstr " command(s)")]
        else (classify_file T wn tmp text).failures) ++ sr.failures := by
  constructor
  · unfold run_file at h
    dsimp only at h
    repeat' split at h
    all_goals first
      | exact Option.noConfusion h
      | (cases h; rfl)
  · intro sr hcmds hs hskip hsaw
    unfold run_file at h
    dsimp only at h
    rw [hcmds] at h
    simp only [Bool.false_eq_true, if_false] at h
    rw [hs] at h
    dsimp only at h
    rw [if_pos hskip, hsaw] at h
    simp only [not_true, ite_false, if_false] at h
    simp only [applyFail] at h
    simp only [Bool.false_eq_true, false_and, if_false, ite_false] at h
    cases h
    exact ⟨rfl, rfl⟩

/-- C10 (witness): the theorem applied to `(invoke "f")` with an
executor reporting `skipped=2`: the result reports zero skipped and a
failed count of 3 = 0 + 0 + 2 + 1. -/
theorem c10_witness :
    (FileRes.mk 1 3 0
      [pstr "#1 invoke: component-test skipped 2 command(s)", pstr "boom"]).skipped
        = 0 ∧
    (FileRes.mk 1 3 0
      [pstr "#1 invoke: component-test skipped 2 command(s)", pstr "boom"]).failed =
      (classify_file toolsSkip true tmp0 (pstr "(invoke \"f\")")).failed +
        (ScriptRes.mk 1 0 2 [pstr "boom"]
          (pstr "RESULT passed=1 failed=0 skipped=2\nFAIL boom") true).failed +
        (ScriptRes.mk 1 0 2 [pstr "boom"]
          (pstr "RESULT passed=1 failed=0 skipped=2\nFAIL boom") true).skipped + 1 := by
  have h : run_file toolsSkip true tmp0 false (pstr "(invoke \"f\")") =
      some ⟨1, 3, 0,
        [pstr "#1 invoke: component-test skipped 2 command(s)", pstr "boom"]⟩ := rfl
  have main := c10_skipped_folded_into_failed toolsSkip true tmp0
    (pstr "(invoke \"f\")") _ h
  exact ⟨main.1,
    (main.2 ⟨1, 0, 2, [pstr "boom"],
      pstr "RESULT passed=1 failed=0 skipped=2\nFAIL boom", true⟩
      rfl rfl (by decide) rfl).1⟩

end Wasmoon
